import Mathlib

/-!
Shallow embedding of the 5v5 football team balancer (`football_balancer.py`).

Python `int` is modelled by `ℤ` (counters by `ℕ`), Python float arithmetic by
exact arithmetic: `ℚ` where the source only adds, multiplies and divides
rationals, and `ℝ` where the source computes `10 ** x` (the ELO expected-score
formula).  Python's `int(·)` conversion truncates toward zero and is modelled
by `ratTrunc` / `pytrunc`; Python's `round(·)` (round-half-to-even) by
`pyRound`.  Python dicts are modelled as insertion-ordered association lists.
Fallible operations return an outcome value; an uncaught Python exception
(`KeyError`) is modelled as a distinguished outcome constructor.
-/

namespace FootballBalancer

/-- Truncation toward zero, as Python's `int(...)` on a rational value. -/
def ratTrunc (q : ℚ) : ℤ :=
  if 0 ≤ q then ⌊q⌋ else ⌈q⌉

/-- Python 3 `round(...)`: round half to even. -/
def pyRound (q : ℚ) : ℤ :=
  let n := ⌊q⌋
  let f := q - n
  if f < 1/2 then n
  else if 1/2 < f then n + 1
  else if n % 2 = 0 then n else n + 1

/-- A player record: `Player.__init__` plus the mutable counters. -/
structure Player where
  name : String
  elo : ℤ
  games_played : ℕ
  wins : ℕ
  losses : ℕ
deriving DecidableEq, Repr

/-- Branch `Player.from_vote`: converts a 1-10 vote to the 1000-2000 ELO
scale, `elo = int(1000 + (vote - 1) * (1000 / 9))`. -/
def Player.from_vote (name : String) (vote : ℤ) : Player :=
  { name := name
    elo := ratTrunc (1000 + ((vote : ℚ) - 1) * (1000 / 9))
    games_played := 0
    wins := 0
    losses := 0 }

/-- A pending game, as stored in `self.pending_games`. -/
structure PendingGame where
  game_id : String
  team1 : List String
  team2 : List String
  team1_avg_elo : ℤ
  team2_avg_elo : ℤ
  timestamp : String
deriving DecidableEq, Repr

/-- A record appended to the game history by `_save_game_history`. -/
structure HistoryRecord where
  game_id : String
  team1 : List String
  team2 : List String
  team1_score : ℤ
  team2_score : ℤ
  team1_avg_elo : ℤ
  team2_avg_elo : ℤ
  winner : String
deriving DecidableEq, Repr

/-- The mutable state of one `TeamBalancer` instance. -/
structure State where
  players : List Player
  base_k_factor : ℤ
  pending_games : List PendingGame
  history : List HistoryRecord
deriving DecidableEq, Repr

/-- Exact-key dict access `self.players[name]`. -/
def lookup (ps : List Player) (n : String) : Option Player :=
  ps.find? (fun p => p.name == n)

/-- Python `str.lower()`, modelled character-wise (ASCII case mapping). -/
def pyLower (s : String) : String := String.mk (s.data.map Char.toLower)

/-- Python `str.strip()`: remove leading and trailing whitespace. -/
def pyStrip (s : String) : String :=
  String.mk (((s.data.dropWhile Char.isWhitespace).reverse.dropWhile Char.isWhitespace).reverse)

/-- Branch `_find_player`: first case-insensitive match in insertion order. -/
def find_player (ps : List Player) (n : String) : Option Player :=
  ps.find? (fun p => pyLower p.name == pyLower n)

/-- Outcome of `add_player`. -/
inductive AddOutcome
  | invalidVote
  | duplicate
  | added
deriving DecidableEq, Repr

/-- Branch `add_player`: vote must lie in `[1, 10]`, the stripped name must
not already exist case-insensitively; on success the new player is appended. -/
def add_player (st : State) (name : String) (vote : ℤ) : State × AddOutcome :=
  if ¬(1 ≤ vote ∧ vote ≤ 10) then (st, .invalidVote)
  else
    let name := pyStrip name
    if st.players.any (fun p => pyLower p.name == pyLower name) then
      (st, .duplicate)
    else
      ({ st with players := st.players ++ [Player.from_vote name vote] }, .added)

/-- Branch `remove_player` (case-insensitive removal of the found player). -/
def remove_player (st : State) (name : String) : State × Bool :=
  match find_player st.players name with
  | none => (st, false)
  | some p => ({ st with players := st.players.filter (fun q => ¬(q.name == p.name)) }, true)

/-- Descending-ELO comparison used by `participants.sort(key=..., reverse=True)`. -/
def eloGE (a b : Player) : Prop := b.elo ≤ a.elo

instance : DecidableRel eloGE := fun a b => inferInstanceAs (Decidable (b.elo ≤ a.elo))

instance : IsTotal Player eloGE := ⟨fun a b => le_total b.elo a.elo⟩

instance : IsTrans Player eloGE := ⟨fun _ _ _ h h' => le_trans h' h⟩

/-- Python's stable sort by ELO descending. -/
def sortDesc (l : List Player) : List Player := l.insertionSort eloGE

/-- Outcome of `create_teams`. -/
inductive CreateOutcome
  | wrongCount
  | unknownPlayers (missing : List String)
  | created (teams : PendingGame)
deriving DecidableEq, Repr

/-- Branch `create_teams`: resolve exactly ten names, sort descending by ELO
(stable), send sorted indices `i % 4 ∈ {0, 3}` to team 1 and the rest to
team 2, round each team's average ELO, and store the pending game. -/
def create_teams (st : State) (gid ts : String) (names : List String) :
    State × CreateOutcome :=
  if names.length ≠ 10 then (st, .wrongCount)
  else
    let missing := names.filter (fun n => (find_player st.players n).isNone)
    if missing ≠ [] then (st, .unknownPlayers missing)
    else
      let participants := names.filterMap (find_player st.players)
      let sorted := sortDesc participants
      let team1 := (sorted.enum.filter (fun x => x.1 % 4 = 0 ∨ x.1 % 4 = 3)).map Prod.snd
      let team2 := (sorted.enum.filter (fun x => ¬(x.1 % 4 = 0 ∨ x.1 % 4 = 3))).map Prod.snd
      let avg1 : ℚ := (((team1.map Player.elo).sum : ℤ) : ℚ) / (team1.length : ℚ)
      let avg2 : ℚ := (((team2.map Player.elo).sum : ℤ) : ℚ) / (team2.length : ℚ)
      let pg : PendingGame :=
        { game_id := gid
          team1 := team1.map Player.name
          team2 := team2.map Player.name
          team1_avg_elo := pyRound avg1
          team2_avg_elo := pyRound avg2
          timestamp := ts }
      ({ st with pending_games := st.pending_games ++ [pg] }, .created pg)

/-! Score parsing (`parse_score`).  The two regular expressions
`(\d+)\s*[-:]\s*(\d+)` and `(\d+)\s+(\d+)` are modelled by leftmost
maximal-munch scanners, which coincide with the regex semantics here because
no fruitful backtracking is possible (a digit run is never followed by a
digit, whitespace is neither a digit nor a separator). -/

/-- Maximal digit run: accumulated value and remaining input. -/
def readDigits : List Char → ℕ → ℕ × List Char
  | c :: cs, acc =>
      if c.isDigit then readDigits cs (10 * acc + (c.toNat - 48)) else (acc, c :: cs)
  | [], acc => (acc, [])

/-- Skip a maximal (possibly empty) whitespace run. -/
def skipWs : List Char → List Char
  | c :: cs => if c.isWhitespace then skipWs cs else c :: cs
  | [] => []

/-- Match `(\d+)\s*[-:]\s*(\d+)` anchored at the head of the input. -/
def matchSep (cs : List Char) : Option (ℕ × ℕ) :=
  match cs with
  | c :: _ =>
    if c.isDigit then
      let r1 := readDigits cs 0
      match skipWs r1.2 with
      | d :: rest =>
        if d = '-' ∨ d = ':' then
          match skipWs rest with
          | e :: es => if e.isDigit then some (r1.1, (readDigits (e :: es) 0).1) else none
          | [] => none
        else none
      | [] => none
    else none
  | [] => none

/-- Match `(\d+)\s+(\d+)` anchored at the head of the input. -/
def matchSpace (cs : List Char) : Option (ℕ × ℕ) :=
  match cs with
  | c :: _ =>
    if c.isDigit then
      let r1 := readDigits cs 0
      match r1.2 with
      | d :: rest =>
        if d.isWhitespace then
          match skipWs rest with
          | e :: es => if e.isDigit then some (r1.1, (readDigits (e :: es) 0).1) else none
          | [] => none
        else none
      | [] => none
    else none
  | [] => none

/-- Leftmost occurrence search, as `re.search`. -/
def searchFrom (m : List Char → Option (ℕ × ℕ)) : List Char → Option (ℕ × ℕ)
  | [] => none
  | c :: cs =>
    match m (c :: cs) with
    | some r => some r
    | none => searchFrom m cs

/-- Branch `parse_score`: first the hyphen/colon pattern, then the
whitespace pattern, else no result. -/
def parse_score (s : String) : Option (ℕ × ℕ) :=
  match searchFrom matchSep s.data with
  | some r => some r
  | none => searchFrom matchSpace s.data

/-! The rating model (`update_ratings` / `record_manual_game`). -/

/-- Branch `_get_player_k_factor`: base K-factor times the experience and
rating multipliers, truncated to an integer. -/
def get_player_k_factor (base : ℤ) (p : Player) : ℤ :=
  let games_multiplier : ℚ :=
    if p.games_played < 10 then 12/10 else if p.games_played < 20 then 1 else 85/100
  let elo_multiplier : ℚ :=
    if p.elo < 1400 then 12/10 else if p.elo < 1600 then 1 else 8/10
  ratTrunc ((base : ℚ) * games_multiplier * elo_multiplier)

/-- Branch `_get_performance_weight`: `diff = (player_elo - team_avg) / 200`,
`weight = 1 ∓ diff * 0.15` depending on `won`, clamped to `[0.7, 1.3]`. -/
def get_performance_weight (player_elo : ℤ) (team_avg : ℚ) (won : Bool) : ℚ :=
  let diff := ((player_elo : ℚ) - team_avg) / 200
  let weight := if won then 1 - diff * (15/100) else 1 + diff * (15/100)
  max (7/10) (min (13/10) weight)

/-- Goal-difference multiplier `1 + (abs(s1 - s2) - 1) * 0.1`. -/
def goal_multiplier (s1 s2 : ℤ) : ℚ :=
  1 + ((|s1 - s2| : ℤ) - 1 : ℚ) * (1/10)

/-- ELO expected score `1 / (1 + 10 ** ((rb - ra) / 400))` for a team of
average rating `ra` against a team of average rating `rb`. -/
noncomputable def expected_score (ra rb : ℚ) : ℝ :=
  1 / (1 + (10 : ℝ) ^ ((((rb - ra : ℚ)) : ℝ) / 400))

/-- Truncation toward zero of a real, as Python's `int(...)` on a float. -/
noncomputable def pytrunc (x : ℝ) : ℤ :=
  if 0 ≤ x then ⌊x⌋ else ⌈x⌉

/-- One loop body of the rating update: individual K-factor, performance
weight, `change = k * goal_multiplier * perf_weight * (result - expected)`,
truncated rating update and counter update. -/
noncomputable def apply_result (base : ℤ) (gm team_avg : ℚ) (expected : ℝ)
    (result : ℚ) (p : Player) : Player :=
  let k := get_player_k_factor base p
  let w := get_performance_weight p.elo team_avg (decide (result = 1))
  let change : ℝ := (k : ℝ) * (gm : ℝ) * (w : ℝ) * ((result : ℝ) - expected)
  { name := p.name
    elo := pytrunc ((p.elo : ℝ) + change)
    games_played := p.games_played + 1
    wins := if result = 1 then p.wins + 1 else p.wins
    losses := if result = 0 then p.losses + 1 else p.losses }

/-- In-place mutation of the registry entry (entries, if the name is not
unique) holding a given exact name. -/
def update_player (ps : List Player) (n : String) (f : Player → Player) : List Player :=
  ps.map (fun p => if p.name = n then f p else p)

/-- One `for player in team_players:` loop, applied in roster order.  Each
step reads the player's current state, as Python's object mutation does. -/
noncomputable def apply_team (ps : List Player) (names : List String) (base : ℤ)
    (gm team_avg : ℚ) (expected : ℝ) (result : ℚ) : List Player :=
  names.foldl (fun acc n => update_player acc n (apply_result base gm team_avg expected result)) ps

/-- Exact-key resolution `[self.players[name] for name in names]`; the first
missing name raises `KeyError`, modelled as `Except.error`. -/
def resolve_all (ps : List Player) : List String → Except String (List Player)
  | [] => .ok []
  | n :: ns =>
    match lookup ps n with
    | none => .error n
    | some p =>
      match resolve_all ps ns with
      | .error m => .error m
      | .ok l => .ok (p :: l)

/-- Outcome of `update_ratings`.  `keyError` is the uncaught Python
`KeyError` raised when a rostered name is absent from the registry. -/
inductive UpdateOutcome
  | notFound
  | keyError (name : String)
  | finalized
deriving DecidableEq, Repr

/-- Average ELO of a resolved roster, `sum(p.elo for p in ps) / len(ps)`. -/
def team_avg_elo (ps : List Player) : ℚ :=
  (((ps.map Player.elo).sum : ℤ) : ℚ) / (ps.length : ℚ)

/-- Branch `update_ratings`: look up the pending game, derive both team
results from the score, re-resolve both rosters against the current registry
(first missing name: `KeyError`), recompute both averages, apply the rating
model to every player of team 1 then of team 2, append a history record and
remove the pending entry. -/
noncomputable def update_ratings (st : State) (gid : String) (s1 s2 : ℤ) :
    State × UpdateOutcome :=
  match st.pending_games.find? (fun g => g.game_id == gid) with
  | none => (st, .notFound)
  | some game =>
    let r1 : ℚ := if s2 < s1 then 1 else if s1 < s2 then 0 else 1/2
    let r2 : ℚ := if s2 < s1 then 0 else if s1 < s2 then 1 else 1/2
    let winner : String := if s2 < s1 then "Team 1" else if s1 < s2 then "Team 2" else "Draw"
    match resolve_all st.players game.team1 with
    | .error n => (st, .keyError n)
    | .ok t1ps =>
      match resolve_all st.players game.team2 with
      | .error n => (st, .keyError n)
      | .ok t2ps =>
        let avg1 := team_avg_elo t1ps
        let avg2 := team_avg_elo t2ps
        let e1 := expected_score avg1 avg2
        let e2 := expected_score avg2 avg1
        let gm := goal_multiplier s1 s2
        let ps1 := apply_team st.players game.team1 st.base_k_factor gm avg1 e1 r1
        let ps2 := apply_team ps1 game.team2 st.base_k_factor gm avg2 e2 r2
        ({ st with
            players := ps2
            pending_games := st.pending_games.filter (fun g => ¬(g.game_id == gid))
            history := st.history ++
              [{ game_id := gid, team1 := game.team1, team2 := game.team2,
                 team1_score := s1, team2_score := s2,
                 team1_avg_elo := ratTrunc avg1, team2_avg_elo := ratTrunc avg2,
                 winner := winner }] },
          .finalized)

/-- Outcome of `record_manual_game`. -/
inductive ManualOutcome
  | wrongCount
  | notFound (missing : List String)
  | ok
deriving DecidableEq, Repr

/-- Branch `record_manual_game`: both rosters must have exactly five names;
every name is resolved case-insensitively and all unresolved names are
reported together; then the same outcome/rating pipeline as `update_ratings`
runs on the resolved players (no pending entry involved) and a history
record tagged by the `_manual` identifier is appended. -/
noncomputable def record_manual_game (st : State) (gid : String)
    (team1_names team2_names : List String) (s1 s2 : ℤ) : State × ManualOutcome :=
  if team1_names.length ≠ 5 ∨ team2_names.length ≠ 5 then (st, .wrongCount)
  else
    let missing := (team1_names ++ team2_names).filter
      (fun n => (find_player st.players n).isNone)
    if missing ≠ [] then (st, .notFound missing)
    else
      let t1ps := team1_names.filterMap (find_player st.players)
      let t2ps := team2_names.filterMap (find_player st.players)
      let r1 : ℚ := if s2 < s1 then 1 else if s1 < s2 then 0 else 1/2
      let r2 : ℚ := if s2 < s1 then 0 else if s1 < s2 then 1 else 1/2
      let winner : String := if s2 < s1 then "Team 1" else if s1 < s2 then "Team 2" else "Pareggio"
      let avg1 := team_avg_elo t1ps
      let avg2 := team_avg_elo t2ps
      let e1 := expected_score avg1 avg2
      let e2 := expected_score avg2 avg1
      let gm := goal_multiplier s1 s2
      let ps1 := apply_team st.players (t1ps.map Player.name) st.base_k_factor gm avg1 e1 r1
      let ps2 := apply_team ps1 (t2ps.map Player.name) st.base_k_factor gm avg2 e2 r2
      ({ st with
          players := ps2
          history := st.history ++
            [{ game_id := gid, team1 := t1ps.map Player.name, team2 := t2ps.map Player.name,
               team1_score := s1, team2_score := s2,
               team1_avg_elo := ratTrunc avg1, team2_avg_elo := ratTrunc avg2,
               winner := winner }] },
        .ok)

/-- Outcome of `delete_pending_game`. -/
inductive CancelOutcome
  | notFound
  | cancelled
deriving DecidableEq, Repr

/-- Modelled from the spec: the implementation of `delete_pending_game` is
not among the provided source files (it is only invoked from the web layer in
`whatsapp_bot_meta.py`); per the specification's `cancel(gameId)` it removes a
PENDING entry with no rating effect and fails with NotFoundError if the
identifier is unknown. -/
def delete_pending_game (st : State) (gid : String) : State × CancelOutcome :=
  match st.pending_games.find? (fun g => g.game_id == gid) with
  | none => (st, .notFound)
  | some _ =>
    ({ st with pending_games := st.pending_games.filter (fun g => ¬(g.game_id == gid)) },
      .cancelled)

/-! Concrete states used by witnesses and counterexamples. -/

/-- The strong roster of `stC4`, as resolved players. -/
def t1C4 : List Player :=
  [Player.mk "a" 1800 0 0 0, Player.mk "b" 1800 0 0 0, Player.mk "c" 1800 0 0 0,
   Player.mk "d" 1800 0 0 0, Player.mk "e" 1800 0 0 0]

/-- The weak roster of `stC4`, as resolved players. -/
def t2C4 : List Player :=
  [Player.mk "f" 1000 0 0 0, Player.mk "g" 1000 0 0 0, Player.mk "h" 1000 0 0 0,
   Player.mk "i" 1000 0 0 0, Player.mk "j" 1000 0 0 0]

/-- Ten equally rated players and one pending game between them. -/
def stC2 : State :=
  State.mk
    [Player.mk "a" 1500 0 0 0, Player.mk "b" 1500 0 0 0, Player.mk "c" 1500 0 0 0,
     Player.mk "d" 1500 0 0 0, Player.mk "e" 1500 0 0 0, Player.mk "f" 1500 0 0 0,
     Player.mk "g" 1500 0 0 0, Player.mk "h" 1500 0 0 0, Player.mk "i" 1500 0 0 0,
     Player.mk "j" 1500 0 0 0]
    32
    [PendingGame.mk "g1" ["a", "b", "c", "d", "e"] ["f", "g", "h", "i", "j"] 1500 1500 "t"]
    []

/-- Nine registered players; the pending game's second roster names "bob",
who is not in the registry. -/
def stC1 : State :=
  State.mk
    [Player.mk "a" 1500 0 0 0, Player.mk "b" 1500 0 0 0, Player.mk "c" 1500 0 0 0,
     Player.mk "d" 1500 0 0 0, Player.mk "e" 1500 0 0 0, Player.mk "f" 1500 0 0 0,
     Player.mk "g" 1500 0 0 0, Player.mk "h" 1500 0 0 0, Player.mk "i" 1500 0 0 0]
    32
    [PendingGame.mk "g1" ["a", "b", "c", "d", "e"] ["f", "g", "h", "i", "bob"] 1500 1500 "t"]
    []

/-- Five strong players (1800) against five weak ones (1000), 800 rating
points apart, with a pending game between them. -/
def stC4 : State :=
  State.mk
    [Player.mk "a" 1800 0 0 0, Player.mk "b" 1800 0 0 0, Player.mk "c" 1800 0 0 0,
     Player.mk "d" 1800 0 0 0, Player.mk "e" 1800 0 0 0, Player.mk "f" 1000 0 0 0,
     Player.mk "g" 1000 0 0 0, Player.mk "h" 1000 0 0 0, Player.mk "i" 1000 0 0 0,
     Player.mk "j" 1000 0 0 0]
    32
    [PendingGame.mk "g1" ["a", "b", "c", "d", "e"] ["f", "g", "h", "i", "j"] 1800 1000 "t"]
    []

/-- Ten registered players, used for manual-game recording. -/
def stC3 : State :=
  State.mk
    [Player.mk "a" 1500 0 0 0, Player.mk "b" 1500 0 0 0, Player.mk "c" 1500 0 0 0,
     Player.mk "d" 1500 0 0 0, Player.mk "e" 1500 0 0 0, Player.mk "f" 1500 0 0 0,
     Player.mk "g" 1500 0 0 0, Player.mk "h" 1500 0 0 0, Player.mk "i" 1500 0 0 0,
     Player.mk "j" 1500 0 0 0]
    32 [] []

/-- Eleven registered players (one of them, "k", never rostered) and one
pending game between the other ten. -/
def stC9 : State :=
  State.mk
    [Player.mk "a" 1500 0 0 0, Player.mk "b" 1500 0 0 0, Player.mk "c" 1500 0 0 0,
     Player.mk "d" 1500 0 0 0, Player.mk "e" 1500 0 0 0, Player.mk "f" 1500 0 0 0,
     Player.mk "g" 1500 0 0 0, Player.mk "h" 1500 0 0 0, Player.mk "i" 1500 0 0 0,
     Player.mk "j" 1500 0 0 0, Player.mk "k" 1500 0 0 0]
    32
    [PendingGame.mk "g1" ["a", "b", "c", "d", "e"] ["f", "g", "h", "i", "j"] 1500 1500 "t"]
    []

/-- The first roster of `stC9`, as resolved players. -/
def t1C9 : List Player :=
  [Player.mk "a" 1500 0 0 0, Player.mk "b" 1500 0 0 0, Player.mk "c" 1500 0 0 0,
   Player.mk "d" 1500 0 0 0, Player.mk "e" 1500 0 0 0]

/-- The second roster of `stC9`, as resolved players. -/
def t2C9 : List Player :=
  [Player.mk "f" 1500 0 0 0, Player.mk "g" 1500 0 0 0, Player.mk "h" 1500 0 0 0,
   Player.mk "i" 1500 0 0 0, Player.mk "j" 1500 0 0 0]

/-- The duplicated roster ["a", "a", "b", "c", "d"] of the C3
counterexample, as resolved players ("a" resolves twice to one record). -/
def tdC3 : List Player :=
  [Player.mk "a" 1500 0 0 0, Player.mk "a" 1500 0 0 0, Player.mk "b" 1500 0 0 0,
   Player.mk "c" 1500 0 0 0, Player.mk "d" 1500 0 0 0]

/-- The second roster ["e", "f", "g", "h", "i"] of the C3 counterexample, as
resolved players. -/
def t2dC3 : List Player :=
  [Player.mk "e" 1500 0 0 0, Player.mk "f" 1500 0 0 0, Player.mk "g" 1500 0 0 0,
   Player.mk "h" 1500 0 0 0, Player.mk "i" 1500 0 0 0]

/-! Helper lemmas about the embedded operations. -/

theorem pytrunc_intCast (n : ℤ) : pytrunc (n : ℝ) = n := by
  unfold pytrunc
  rcases le_or_lt 0 (n : ℝ) with h | h
  · rw [if_pos h, Int.floor_intCast]
  · rw [if_neg (not_le.mpr h), Int.ceil_intCast]

theorem pytrunc_mono {x y : ℝ} (h : x ≤ y) : pytrunc x ≤ pytrunc y := by
  unfold pytrunc
  rcases le_or_lt 0 x with hx | hx
  · rw [if_pos hx, if_pos (le_trans hx h)]
    exact Int.floor_le_floor h
  · rcases le_or_lt 0 y with hy | hy
    · rw [if_neg (not_le.mpr hx), if_pos hy]
      calc ⌈x⌉ ≤ 0 := Int.ceil_le.mpr (by exact_mod_cast hx.le)
        _ ≤ ⌊y⌋ := Int.le_floor.mpr (by exact_mod_cast hy)
    · rw [if_neg (not_le.mpr hx), if_neg (not_le.mpr hy)]
      exact Int.ceil_le_ceil h

theorem pytrunc_eq_floor {x : ℝ} (h : 0 ≤ x) : pytrunc x = ⌊x⌋ := by
  unfold pytrunc
  rw [if_pos h]

/-- Magnitude of the truncated rating delta is monotone when the raw change
is scaled by `11/10`. -/
theorem pytrunc_delta_abs_le (n : ℤ) (c : ℝ) :
    |pytrunc ((n : ℝ) + c) - n| ≤ |pytrunc ((n : ℝ) + (11/10) * c) - n| := by
  rcases le_or_lt 0 c with hc | hc
  · have h1 : (n : ℝ) ≤ (n : ℝ) + c := by linarith
    have h2 : (n : ℝ) + c ≤ (n : ℝ) + (11/10) * c := by linarith
    have l1 : n ≤ pytrunc ((n : ℝ) + c) := by
      calc n = pytrunc (n : ℝ) := (pytrunc_intCast n).symm
        _ ≤ pytrunc ((n : ℝ) + c) := pytrunc_mono h1
    have l2 : pytrunc ((n : ℝ) + c) ≤ pytrunc ((n : ℝ) + (11/10) * c) := pytrunc_mono h2
    rw [abs_of_nonneg (by omega), abs_of_nonneg (by omega)]
    omega
  · have h1 : (n : ℝ) + c ≤ (n : ℝ) := by linarith
    have h2 : (n : ℝ) + (11/10) * c ≤ (n : ℝ) + c := by linarith
    have l1 : pytrunc ((n : ℝ) + c) ≤ n := by
      calc pytrunc ((n : ℝ) + c) ≤ pytrunc (n : ℝ) := pytrunc_mono h1
        _ = n := pytrunc_intCast n
    have l2 : pytrunc ((n : ℝ) + (11/10) * c) ≤ pytrunc ((n : ℝ) + c) := pytrunc_mono h2
    rw [abs_of_nonpos (by omega), abs_of_nonpos (by omega)]
    omega

theorem expected_score_self (a : ℚ) : expected_score a a = 1/2 := by
  simp [expected_score]
  norm_num

theorem apply_result_name (b : ℤ) (gm avg : ℚ) (e : ℝ) (r : ℚ) (p : Player) :
    (apply_result b gm avg e r p).name = p.name := rfl

theorem apply_result_games (b : ℤ) (gm avg : ℚ) (e : ℝ) (r : ℚ) (p : Player) :
    (apply_result b gm avg e r p).games_played = p.games_played + 1 := rfl

/-- When the actual result equals the expected score, the truncated rating
update is the identity on the rating. -/
theorem apply_result_elo_eq (b : ℤ) (gm avg : ℚ) (e : ℝ) (r : ℚ) (p : Player)
    (h : (r : ℝ) - e = 0) : (apply_result b gm avg e r p).elo = p.elo := by
  simp [apply_result, h, pytrunc_intCast]

theorem lookup_name {ps : List Player} {n : String} {p : Player}
    (h : lookup ps n = some p) : p.name = n := by
  have := List.find?_some h
  simpa using this

theorem lookup_mem {ps : List Player} {n : String} {p : Player}
    (h : lookup ps n = some p) : p ∈ ps :=
  List.mem_of_find?_eq_some h

theorem lookup_update_player_self {ps : List Player} {n : String} {f : Player → Player}
    (hf : ∀ p, (f p).name = p.name) :
    lookup (update_player ps n f) n = (lookup ps n).map f := by
  induction ps with
  | nil => rfl
  | cons p ps ih =>
    by_cases h : p.name = n
    · simp [update_player, lookup, List.find?_cons, h, hf]
    · have hb : (p.name == n) = false := by simpa using h
      simp only [update_player, List.map_cons, if_neg h]
      simp only [lookup, List.find?_cons, hb]
      exact ih

theorem lookup_update_player_ne {ps : List Player} {n m : String} {f : Player → Player}
    (hf : ∀ p, (f p).name = p.name) (hnm : m ≠ n) :
    lookup (update_player ps n f) m = lookup ps m := by
  induction ps with
  | nil => rfl
  | cons p ps ih =>
    by_cases h : p.name = n
    · have hb : ((f p).name == m) = false := by
        simp [hf, h]
        exact fun hc => hnm hc.symm
      have hb' : (p.name == m) = false := by
        simp [h]
        exact fun hc => hnm hc.symm
      simp only [update_player, List.map_cons, if_pos h]
      simp only [lookup, List.find?_cons, hb, hb']
      exact ih
    · simp only [update_player, List.map_cons, if_neg h]
      by_cases h2 : p.name = m
      · simp [lookup, List.find?_cons, h2]
      · have hb : (p.name == m) = false := by simpa using h2
        simp only [lookup, List.find?_cons, hb]
        exact ih

theorem apply_team_nil (ps : List Player) (b : ℤ) (gm avg : ℚ) (e : ℝ) (r : ℚ) :
    apply_team ps [] b gm avg e r = ps := rfl

theorem apply_team_cons (ps : List Player) (n : String) (ns : List String)
    (b : ℤ) (gm avg : ℚ) (e : ℝ) (r : ℚ) :
    apply_team ps (n :: ns) b gm avg e r =
      apply_team (update_player ps n (apply_result b gm avg e r)) ns b gm avg e r := rfl

theorem lookup_apply_team_notMem {ps : List Player} {names : List String} {m : String}
    (b : ℤ) (gm avg : ℚ) (e : ℝ) (r : ℚ) (hm : m ∉ names) :
    lookup (apply_team ps names b gm avg e r) m = lookup ps m := by
  induction names generalizing ps with
  | nil => rfl
  | cons n ns ih =>
    rw [apply_team_cons]
    rw [ih (fun h => hm (List.mem_cons_of_mem n h))]
    exact lookup_update_player_ne (fun p => apply_result_name b gm avg e r p)
      (fun h => hm (h ▸ List.mem_cons_self n ns))

/-- Under a duplicate-free roster, each rostered player is updated exactly
once by the team loop. -/
theorem lookup_apply_team_mem {ps : List Player} {names : List String} {m : String}
    (b : ℤ) (gm avg : ℚ) (e : ℝ) (r : ℚ) (hnd : names.Nodup) (hm : m ∈ names) :
    lookup (apply_team ps names b gm avg e r) m =
      (lookup ps m).map (apply_result b gm avg e r) := by
  induction names generalizing ps with
  | nil => cases hm
  | cons n ns ih =>
    rw [apply_team_cons]
    rcases List.mem_cons.mp hm with rfl | hm'
    · have hnotin : m ∉ ns := (List.nodup_cons.mp hnd).1
      rw [lookup_apply_team_notMem b gm avg e r hnotin]
      exact lookup_update_player_self (fun p => apply_result_name b gm avg e r p)
    · have hne : m ≠ n := by
        rintro rfl
        exact (List.nodup_cons.mp hnd).1 hm'
      rw [ih (List.nodup_cons.mp hnd).2 hm']
      rw [lookup_update_player_ne (fun p => apply_result_name b gm avg e r p) hne]

theorem mem_update_player {ps : List Player} {n : String} {f : Player → Player} {q : Player}
    (h : q ∈ update_player ps n f) : q ∈ ps ∨ ∃ p ∈ ps, q = f p := by
  rcases List.mem_map.mp h with ⟨p, hp, hq⟩
  by_cases hn : p.name = n
  · right
    exact ⟨p, hp, by rw [← hq, if_pos hn]⟩
  · left
    rw [← hq, if_neg hn]
    exact hp

theorem forall_mem_update_player {P : Player → Prop} {ps : List Player} {n : String}
    {f : Player → Player} (hps : ∀ p ∈ ps, P p) (hf : ∀ p, P p → P (f p)) :
    ∀ q ∈ update_player ps n f, P q := by
  intro q hq
  rcases mem_update_player hq with h | ⟨p, hp, rfl⟩
  · exact hps q h
  · exact hf p (hps p hp)

theorem forall_mem_apply_team {P : Player → Prop} {ps : List Player} {names : List String}
    (b : ℤ) (gm avg : ℚ) (e : ℝ) (r : ℚ) (hps : ∀ p ∈ ps, P p)
    (hf : ∀ p, P p → P (apply_result b gm avg e r p)) :
    ∀ q ∈ apply_team ps names b gm avg e r, P q := by
  induction names generalizing ps with
  | nil => exact hps
  | cons n ns ih =>
    rw [apply_team_cons]
    exact ih (forall_mem_update_player hps hf)

theorem resolve_all_ok_isSome {ps : List Player} {ns : List String} {l : List Player}
    (h : resolve_all ps ns = .ok l) : ∀ n ∈ ns, (lookup ps n).isSome := by
  induction ns generalizing l with
  | nil => intro n hn; cases hn
  | cons n ns ih =>
    intro m hm
    rcases List.mem_cons.mp hm with rfl | hm'
    · unfold resolve_all at h
      cases hl : lookup ps m with
      | none => rw [hl] at h; exact absurd h (by simp)
      | some p => simp [hl]
    · unfold resolve_all at h
      cases hl : lookup ps n with
      | none => rw [hl] at h; exact absurd h (by simp)
      | some p =>
        rw [hl] at h
        cases hr : resolve_all ps ns with
        | error m' => rw [hr] at h; exact absurd h (by simp)
        | ok l' => exact ih hr m hm'

theorem resolve_all_error_of_none {ps : List Player} {ns : List String} {n : String}
    (hm : n ∈ ns) (h : lookup ps n = none) : ∃ m, resolve_all ps ns = .error m := by
  induction ns with
  | nil => cases hm
  | cons k ks ih =>
    unfold resolve_all
    rcases List.mem_cons.mp hm with rfl | hm'
    · rw [h]
      exact ⟨n, rfl⟩
    · cases hl : lookup ps k with
      | none => exact ⟨k, rfl⟩
      | some p =>
        rcases ih hm' with ⟨m, hmr⟩
        rw [hmr]
        exact ⟨m, rfl⟩

theorem update_player_map_proj {ps : List Player} {n : String} {f : Player → Player}
    (hf : ∀ p, (f p).name = p.name ∧ (f p).elo = p.elo) :
    (update_player ps n f).map (fun p => (p.name, p.elo)) =
      ps.map (fun p => (p.name, p.elo)) := by
  unfold update_player
  rw [List.map_map]
  apply List.map_congr_left
  intro p _
  by_cases h : p.name = n
  · simp [h, (hf p).1, (hf p).2]
  · simp [h]

theorem apply_team_map_proj {ps : List Player} {names : List String} (b : ℤ)
    (gm avg : ℚ) (e : ℝ) (r : ℚ)
    (h : ∀ p : Player, (apply_result b gm avg e r p).elo = p.elo) :
    (apply_team ps names b gm avg e r).map (fun p => (p.name, p.elo)) =
      ps.map (fun p => (p.name, p.elo)) := by
  induction names generalizing ps with
  | nil => rfl
  | cons n ns ih =>
    rw [apply_team_cons, ih]
    exact update_player_map_proj (fun p => ⟨apply_result_name b gm avg e r p, h p⟩)

/-! Claim theorems. -/

/-- C10: for every game identifier not present in the pending set,
`update_ratings` returns the not-found error and changes nothing: players
(ratings and counters), pending games and history are exactly as before. -/
theorem claim_C10 (st : State) (gid : String) (s1 s2 : ℤ)
    (h : ∀ g ∈ st.pending_games, g.game_id ≠ gid) :
    update_ratings st gid s1 s2 = (st, .notFound) := by
  have hf : st.pending_games.find? (fun g => g.game_id == gid) = none := by
    rw [List.find?_eq_none]
    intro g hg
    simpa using h g hg
  unfold update_ratings
  rw [hf]

/-- Witness for C10 at a concrete state with an empty pending set. -/
theorem claim_C10_witness :
    (∀ g ∈ (State.mk [Player.mk "a" 1500 0 0 0] 32 [] []).pending_games,
        g.game_id ≠ "20240101_000000") ∧
    update_ratings (State.mk [Player.mk "a" 1500 0 0 0] 32 [] []) "20240101_000000" 5 3 =
      (State.mk [Player.mk "a" 1500 0 0 0] 32 [] [], .notFound) :=
  ⟨by simp, claim_C10 _ _ _ _ (by simp)⟩

/-- C8: cancelling (`delete_pending_game`, modelled from the spec) removes a
present pending entry while leaving players and history unchanged, and fails
with the not-found error for an unknown identifier. -/
theorem claim_C8 (st : State) (gid : String) :
    ((∃ g ∈ st.pending_games, g.game_id = gid) →
      ∃ st', delete_pending_game st gid = (st', .cancelled) ∧
        st'.players = st.players ∧ st'.history = st.history ∧
        st'.pending_games = st.pending_games.filter (fun g => ¬(g.game_id == gid))) ∧
    ((∀ g ∈ st.pending_games, g.game_id ≠ gid) →
      delete_pending_game st gid = (st, .notFound)) := by
  constructor
  · intro hex
    have hs : (st.pending_games.find? (fun g => g.game_id == gid)).isSome := by
      rw [List.find?_isSome]
      rcases hex with ⟨g, hg, hid⟩
      exact ⟨g, hg, by simpa using hid⟩
    cases hfind : st.pending_games.find? (fun g => g.game_id == gid) with
    | none => rw [hfind] at hs; cases hs
    | some g =>
      refine ⟨{ st with pending_games :=
        st.pending_games.filter (fun g => ¬(g.game_id == gid)) }, ?_, rfl, rfl, rfl⟩
      unfold delete_pending_game
      rw [hfind]
  · intro h
    have hf : st.pending_games.find? (fun g => g.game_id == gid) = none := by
      rw [List.find?_eq_none]
      intro g hg
      simpa using h g hg
    unfold delete_pending_game
    rw [hf]

/-- Witness for C8: cancelling a concrete present game, and a concrete
absent one. -/
theorem claim_C8_witness :
    (∃ st', delete_pending_game
        (State.mk [] 32 [PendingGame.mk "g1" ["a"] ["b"] 1500 1500 "t"] []) "g1" =
        (st', .cancelled) ∧
      st'.players = [] ∧ st'.history = [] ∧
      st'.pending_games = [] ) ∧
    delete_pending_game (State.mk [] 32 [] []) "g1" = (State.mk [] 32 [] [], .notFound) := by
  constructor
  · rcases (claim_C8 (State.mk [] 32 [PendingGame.mk "g1" ["a"] ["b"] 1500 1500 "t"] []) "g1").1
      ⟨PendingGame.mk "g1" ["a"] ["b"] 1500 1500 "t", by simp, rfl⟩ with ⟨st', h1, h2, h3, h4⟩
    refine ⟨st', h1, h2, h3, ?_⟩
    rw [h4]
    rfl
  · exact (claim_C8 (State.mk [] 32 [] []) "g1").2 (by simp)

/-- C7: the score parser searches the "integer, optional whitespace, '-' or
':', optional whitespace, integer" pattern first and returns its first match,
otherwise the "integer, whitespace, integer" pattern, otherwise nothing; in
particular on "5-3", "5 3" and "no digits here". -/
theorem claim_C7 :
    (∀ s : String, parse_score s =
      match searchFrom matchSep s.data with
      | some r => some r
      | none => searchFrom matchSpace s.data) ∧
    parse_score "5-3" = some (5, 3) ∧
    parse_score "5 3" = some (5, 3) ∧
    parse_score "no digits here" = none :=
  ⟨fun _ => rfl, by decide, by decide, by decide⟩

/-- C6: `add_player` rejects votes outside `[1, 10]`, rejects a
case-insensitive duplicate of the (stripped) name, and otherwise appends a
new player with rating `1000 + (vote - 1) * (1000 / 9)` truncated to an
integer (vote 1 gives 1000, vote 10 gives 2000) and zeroed counters. -/
theorem claim_C6 (st : State) (name : String) (vote : ℤ) :
    (¬(1 ≤ vote ∧ vote ≤ 10) → add_player st name vote = (st, .invalidVote)) ∧
    (1 ≤ vote → vote ≤ 10 →
      (∃ p ∈ st.players, pyLower p.name = pyLower (pyStrip name)) →
      add_player st name vote = (st, .duplicate)) ∧
    (1 ≤ vote → vote ≤ 10 →
      (∀ p ∈ st.players, pyLower p.name ≠ pyLower (pyStrip name)) →
      add_player st name vote =
        ({ st with players := st.players ++
            [{ name := pyStrip name
               elo := ratTrunc (1000 + ((vote : ℚ) - 1) * (1000/9))
               games_played := 0, wins := 0, losses := 0 }] }, .added)) ∧
    (Player.from_vote name 1).elo = 1000 ∧
    (Player.from_vote name 10).elo = 2000 := by
  refine ⟨?_, ?_, ?_, ?_, ?_⟩
  · intro h
    unfold add_player
    rw [if_pos h]
  · intro h1 h2 hdup
    have hany : (st.players.any (fun p => pyLower p.name == pyLower (pyStrip name))) = true := by
      rw [List.any_eq_true]
      rcases hdup with ⟨p, hp, he⟩
      exact ⟨p, hp, by simpa using he⟩
    unfold add_player
    rw [if_neg (by exact fun hc => hc ⟨h1, h2⟩), if_pos hany]
  · intro h1 h2 hnodup
    have hany : (st.players.any (fun p => pyLower p.name == pyLower (pyStrip name))) = false := by
      rw [List.any_eq_false]
      intro p hp
      simpa using hnodup p hp
    unfold add_player
    rw [if_neg (by exact fun hc => hc ⟨h1, h2⟩), if_neg (by simp [hany]), Player.from_vote]
  · norm_num [Player.from_vote, ratTrunc]
  · norm_num [Player.from_vote, ratTrunc]

/-- Witness for C6: the three branches at concrete inputs. -/
theorem claim_C6_witness :
    add_player (State.mk [] 32 [] []) "John" 7 =
      (State.mk [Player.mk "John" 1666 0 0 0] 32 [] [], .added) ∧
    add_player (State.mk [Player.mk "John" 1666 0 0 0] 32 [] []) "john" 5 =
      (State.mk [Player.mk "John" 1666 0 0 0] 32 [] [], .duplicate) ∧
    add_player (State.mk [] 32 [] []) "Bob" 11 = (State.mk [] 32 [] [], .invalidVote) := by
  refine ⟨?_, ?_, ?_⟩
  · have h := (claim_C6 (State.mk [] 32 [] []) "John" 7).2.2.1
      (by decide) (by decide) (by simp)
    have hs : pyStrip "John" = "John" := by decide
    rw [h, hs]
    norm_num [ratTrunc]
  · exact (claim_C6 (State.mk [Player.mk "John" 1666 0 0 0] 32 [] []) "john" 5).2.1
      (by decide) (by decide) ⟨Player.mk "John" 1666 0 0 0, by simp, by decide⟩
  · exact (claim_C6 (State.mk [] 32 [] []) "Bob" 11).1 (by decide)

/-- C1 (counterexample): for a concrete pending game whose second roster
names the unregistered player "bob", `update_ratings` terminates with the
uncaught `KeyError` — an unstructured failure — and not with a structured
ConsistencyError result (no such error kind exists in the code), refuting
the claim as stated. -/
theorem claim_C1_counterexample :
    update_ratings stC1 "g1" 2 1 = (stC1, .keyError "bob") := by
  rfl

/-- C1 (amended): for every pending game whose stored rosters contain a name
that is no longer present in the registry at finalize time, `update_ratings`
terminates with the uncaught Python `KeyError` (an unstructured failure
rather than a structured ConsistencyError result), leaving ratings, the
pending set and the history unchanged. -/
theorem claim_C1_amended (st : State) (gid : String) (s1 s2 : ℤ) (g : PendingGame)
    (hfind : st.pending_games.find? (fun g => g.game_id == gid) = some g)
    (hmiss : ∃ n ∈ g.team1 ++ g.team2, lookup st.players n = none) :
    ∃ n, update_ratings st gid s1 s2 = (st, .keyError n) := by
  obtain ⟨n, hn, hnone⟩ := hmiss
  unfold update_ratings
  rw [hfind]
  dsimp only
  rcases List.mem_append.mp hn with h1 | h2
  · obtain ⟨m, hm⟩ := resolve_all_error_of_none h1 hnone
    rw [hm]
    exact ⟨m, rfl⟩
  · cases hr1 : resolve_all st.players g.team1 with
    | error m =>
      exact ⟨m, rfl⟩
    | ok t1ps =>
      dsimp only
      obtain ⟨m, hm⟩ := resolve_all_error_of_none h2 hnone
      rw [hm]
      exact ⟨m, rfl⟩

/-- Witness for the amended C1 at the concrete state of the counterexample. -/
theorem claim_C1_amended_witness :
    ∃ n, update_ratings stC1 "g1" 2 1 = (stC1, .keyError n) :=
  claim_C1_amended stC1 "g1" 2 1
    (PendingGame.mk "g1" ["a", "b", "c", "d", "e"] ["f", "g", "h", "i", "bob"] 1500 1500 "t")
    rfl ⟨"bob", by simp, rfl⟩

/-- C2: finalizing a pending game between two rosters of equal average
rating with a drawn score succeeds and leaves every player's rating exactly
unchanged (the truncated delta is zero). -/
theorem claim_C2 (st : State) (gid : String) (s1 s2 : ℤ) (g : PendingGame)
    (t1ps t2ps : List Player)
    (hfind : st.pending_games.find? (fun g => g.game_id == gid) = some g)
    (h1 : resolve_all st.players g.team1 = .ok t1ps)
    (h2 : resolve_all st.players g.team2 = .ok t2ps)
    (havg : team_avg_elo t1ps = team_avg_elo t2ps)
    (hdraw : s1 = s2) :
    (update_ratings st gid s1 s2).2 = .finalized ∧
    (update_ratings st gid s1 s2).1.players.map (fun p => (p.name, p.elo)) =
      st.players.map (fun p => (p.name, p.elo)) := by
  subst hdraw
  unfold update_ratings
  rw [hfind]
  dsimp only
  rw [h1]
  dsimp only
  rw [h2]
  dsimp only
  simp only [lt_irrefl, if_false]
  have he : expected_score (team_avg_elo t1ps) (team_avg_elo t2ps) = 1/2 := by
    rw [havg, expected_score_self]
  have he' : expected_score (team_avg_elo t2ps) (team_avg_elo t1ps) = 1/2 := by
    rw [havg, expected_score_self]
  have hz : ((1/2 : ℚ) : ℝ) - (1/2 : ℝ) = 0 := by norm_num
  constructor
  · trivial
  · rw [he, he']
    rw [apply_team_map_proj _ _ _ _ _ (fun p => apply_result_elo_eq _ _ _ _ _ p hz)]
    rw [apply_team_map_proj _ _ _ _ _ (fun p => apply_result_elo_eq _ _ _ _ _ p hz)]

/-- Witness for C2: a concrete drawn game between two all-1500 rosters. -/
theorem claim_C2_witness :
    (update_ratings stC2 "g1" 2 2).2 = .finalized ∧
    (update_ratings stC2 "g1" 2 2).1.players.map (fun p => (p.name, p.elo)) =
      stC2.players.map (fun p => (p.name, p.elo)) :=
  claim_C2 stC2 "g1" 2 2
    (PendingGame.mk "g1" ["a", "b", "c", "d", "e"] ["f", "g", "h", "i", "j"] 1500 1500 "t")
    [Player.mk "a" 1500 0 0 0, Player.mk "b" 1500 0 0 0, Player.mk "c" 1500 0 0 0,
     Player.mk "d" 1500 0 0 0, Player.mk "e" 1500 0 0 0]
    [Player.mk "f" 1500 0 0 0, Player.mk "g" 1500 0 0 0, Player.mk "h" 1500 0 0 0,
     Player.mk "i" 1500 0 0 0, Player.mk "j" 1500 0 0 0]
    rfl rfl rfl rfl rfl

/-- A name listed twice at the head of a team loop, and nowhere else in it,
has its registry record transformed twice (the second pass reads the state
left by the first, as Python's repeated object mutation does). -/
theorem lookup_apply_team_dup {ps : List Player} {n : String} {rest : List String}
    (b : ℤ) (gm avg : ℚ) (e : ℝ) (r : ℚ) (hn : n ∉ rest) :
    lookup (apply_team ps (n :: n :: rest) b gm avg e r) n =
      ((lookup ps n).map (apply_result b gm avg e r)).map (apply_result b gm avg e r) := by
  rw [apply_team_cons, apply_team_cons]
  rw [lookup_apply_team_notMem _ _ _ _ _ hn]
  rw [lookup_update_player_self (fun p => apply_result_name b gm avg e r p)]
  rw [lookup_update_player_self (fun p => apply_result_name b gm avg e r p)]

theorem apply_result_dup_first :
    apply_result 32 (goal_multiplier 1 0) 1500 (1/2) 1 (Player.mk "a" 1500 0 0 0) =
      Player.mk "a" 1519 1 1 0 := by
  unfold apply_result
  have hk : get_player_k_factor 32 (Player.mk "a" 1500 0 0 0) = 38 := by
    norm_num [get_player_k_factor, ratTrunc]
  rw [hk]
  norm_num [get_performance_weight, goal_multiplier, Player.mk.injEq]
  rw [pytrunc_eq_floor (by norm_num), Int.floor_eq_iff]
  constructor <;> norm_num

theorem apply_result_dup_second :
    apply_result 32 (goal_multiplier 1 0) 1500 (1/2) 1 (Player.mk "a" 1519 1 1 0) =
      Player.mk "a" 1537 2 2 0 := by
  unfold apply_result
  have hk : get_player_k_factor 32 (Player.mk "a" 1519 1 1 0) = 38 := by
    norm_num [get_player_k_factor, ratTrunc]
  rw [hk]
  norm_num [get_performance_weight, goal_multiplier, Player.mk.injEq]
  rw [pytrunc_eq_floor (by norm_num), Int.floor_eq_iff]
  constructor <;> norm_num

/-- In the concrete duplicate-roster call, player "a" is updated twice:
1500 → 1519 → 1537, with games_played and wins both reaching 2 from one
call. -/
theorem stC3_dup_lookup_a :
    lookup (record_manual_game stC3 "gm" ["a", "a", "b", "c", "d"]
      ["e", "f", "g", "h", "i"] 1 0).1.players "a" = some (Player.mk "a" 1537 2 2 0) := by
  have hred : (record_manual_game stC3 "gm" ["a", "a", "b", "c", "d"]
      ["e", "f", "g", "h", "i"] 1 0).1.players =
      apply_team (apply_team stC3.players ["a", "a", "b", "c", "d"] 32 (goal_multiplier 1 0)
          (team_avg_elo tdC3) (expected_score (team_avg_elo tdC3) (team_avg_elo t2dC3)) 1)
        ["e", "f", "g", "h", "i"] 32 (goal_multiplier 1 0) (team_avg_elo t2dC3)
        (expected_score (team_avg_elo t2dC3) (team_avg_elo tdC3)) 0 := rfl
  rw [hred]
  rw [lookup_apply_team_notMem _ _ _ _ _ (by decide)]
  rw [lookup_apply_team_dup _ _ _ _ _ (by decide)]
  rw [show lookup stC3.players "a" = some (Player.mk "a" 1500 0 0 0) from rfl]
  rw [Option.map_some', Option.map_some']
  have havg1 : team_avg_elo tdC3 = 1500 := by norm_num [team_avg_elo, tdC3]
  have havg2 : team_avg_elo t2dC3 = 1500 := by norm_num [team_avg_elo, t2dC3]
  rw [havg1, havg2, expected_score_self]
  rw [apply_result_dup_first, apply_result_dup_second]

/-- C3 (counterexample): a manual game in which the name "a" appears twice
on one side (five names, all resolvable, but not distinct) is accepted and
processed, not rejected; the duplicated player "a" is updated twice by the
single call (games_played and wins go from 0 to 2, rating 1500 to 1537),
refuting the distinctness part of the claim. -/
theorem claim_C3_counterexample :
    (record_manual_game stC3 "gm" ["a", "a", "b", "c", "d"] ["e", "f", "g", "h", "i"] 1 0).2 =
      .ok ∧
    lookup (record_manual_game stC3 "gm" ["a", "a", "b", "c", "d"]
      ["e", "f", "g", "h", "i"] 1 0).1.players "a" = some (Player.mk "a" 1537 2 2 0) :=
  ⟨rfl, stC3_dup_lookup_a⟩

/-- C3 (amended): `record_manual_game` validates that each side has exactly
five names, each resolvable in the registry, failing with the wrong-count
error or the not-found error (listing the unresolvable names) before
mutating any state; it does not check distinctness, so a call with five
resolvable names per side is accepted even when a name repeats — and a name
listed twice on team 1 (and nowhere else in that game) has its player record
put through the rating update twice by the one call. -/
theorem claim_C3_amended (st : State) (gid : String) (t1 t2 : List String) (s1 s2 : ℤ) :
    (t1.length ≠ 5 ∨ t2.length ≠ 5 →
      record_manual_game st gid t1 t2 s1 s2 = (st, .wrongCount)) ∧
    (t1.length = 5 → t2.length = 5 →
      (∃ n ∈ t1 ++ t2, find_player st.players n = none) →
      record_manual_game st gid t1 t2 s1 s2 =
        (st, .notFound ((t1 ++ t2).filter (fun n => (find_player st.players n).isNone)))) ∧
    (t1.length = 5 → t2.length = 5 →
      (∀ n ∈ t1 ++ t2, (find_player st.players n).isSome) →
      (record_manual_game st gid t1 t2 s1 s2).2 = .ok) ∧
    (∀ (n : String) (rest : List String) (p : Player),
      t1 = n :: n :: rest → rest.length = 3 → t2.length = 5 →
      (∀ m ∈ t1 ++ t2, (find_player st.players m).isSome) →
      find_player st.players n = some p →
      p.name ∉ (rest.filterMap (find_player st.players)).map Player.name →
      p.name ∉ (t2.filterMap (find_player st.players)).map Player.name →
      lookup (record_manual_game st gid t1 t2 s1 s2).1.players p.name =
        ((lookup st.players p.name).map (apply_result st.base_k_factor (goal_multiplier s1 s2)
            (team_avg_elo (t1.filterMap (find_player st.players)))
            (expected_score (team_avg_elo (t1.filterMap (find_player st.players)))
              (team_avg_elo (t2.filterMap (find_player st.players))))
            (if s2 < s1 then 1 else if s1 < s2 then 0 else 1/2))).map
          (apply_result st.base_k_factor (goal_multiplier s1 s2)
            (team_avg_elo (t1.filterMap (find_player st.players)))
            (expected_score (team_avg_elo (t1.filterMap (find_player st.players)))
              (team_avg_elo (t2.filterMap (find_player st.players))))
            (if s2 < s1 then 1 else if s1 < s2 then 0 else 1/2))) := by
  refine ⟨?_, ?_, ?_, ?_⟩
  · intro h
    unfold record_manual_game
    rw [if_pos h]
  · intro h1 h2 hmiss
    obtain ⟨n, hn, hnone⟩ := hmiss
    have hne : (t1 ++ t2).filter (fun n => (find_player st.players n).isNone) ≠ [] := by
      apply List.ne_nil_of_mem (a := n)
      rw [List.mem_filter]
      exact ⟨hn, by simp [hnone]⟩
    unfold record_manual_game
    rw [if_neg (by push_neg; exact ⟨h1, h2⟩), if_pos hne]
  · intro h1 h2 hall
    have hnil : (t1 ++ t2).filter (fun n => (find_player st.players n).isNone) = [] := by
      rw [List.filter_eq_nil_iff]
      intro n hn
      simpa using Option.ne_none_iff_isSome.mpr (hall n hn)
    unfold record_manual_game
    rw [if_neg (by push_neg; exact ⟨h1, h2⟩), if_neg (by simp [hnil])]
  · intro n rest p ht1 hrest h2len hall hfp hnr hnt2
    subst ht1
    have hmiss : ((n :: n :: rest) ++ t2).filter
        (fun m => (find_player st.players m).isNone) = [] := by
      rw [List.filter_eq_nil_iff]
      intro m hm
      simpa using Option.ne_none_iff_isSome.mpr (hall m hm)
    unfold record_manual_game
    rw [if_neg (by push_neg; exact ⟨by simp [hrest], h2len⟩), if_neg (fun hc => hc hmiss)]
    dsimp only
    rw [lookup_apply_team_notMem _ _ _ _ _ hnt2]
    simp only [List.filterMap_cons, hfp, List.map_cons]
    exact lookup_apply_team_dup _ _ _ _ _ hnr

/-- Witness for the amended C3: the wrong-count branch, the not-found
branch, and the duplicate-name double update, all at concrete inputs. -/
theorem claim_C3_amended_witness :
    record_manual_game stC3 "gm" ["a"] ["b"] 1 0 = (stC3, .wrongCount) ∧
    record_manual_game stC3 "gm" ["a", "b", "c", "d", "e"] ["f", "g", "h", "i", "zz"] 1 0 =
      (stC3, .notFound ["zz"]) ∧
    lookup (record_manual_game stC3 "gm" ["a", "a", "b", "c", "d"]
        ["e", "f", "g", "h", "i"] 1 0).1.players "a" =
      ((lookup stC3.players "a").map (apply_result stC3.base_k_factor (goal_multiplier 1 0)
          (team_avg_elo ((["a", "a", "b", "c", "d"] : List String).filterMap
            (find_player stC3.players)))
          (expected_score
            (team_avg_elo ((["a", "a", "b", "c", "d"] : List String).filterMap
              (find_player stC3.players)))
            (team_avg_elo ((["e", "f", "g", "h", "i"] : List String).filterMap
              (find_player stC3.players))))
          (if (0:ℤ) < 1 then 1 else if (1:ℤ) < 0 then 0 else 1/2))).map
        (apply_result stC3.base_k_factor (goal_multiplier 1 0)
          (team_avg_elo ((["a", "a", "b", "c", "d"] : List String).filterMap
            (find_player stC3.players)))
          (expected_score
            (team_avg_elo ((["a", "a", "b", "c", "d"] : List String).filterMap
              (find_player stC3.players)))
            (team_avg_elo ((["e", "f", "g", "h", "i"] : List String).filterMap
              (find_player stC3.players))))
          (if (0:ℤ) < 1 then 1 else if (1:ℤ) < 0 then 0 else 1/2)) := by
  refine ⟨?_, ?_, ?_⟩
  · exact (claim_C3_amended stC3 "gm" ["a"] ["b"] 1 0).1 (by decide)
  · have h := (claim_C3_amended stC3 "gm" ["a", "b", "c", "d", "e"]
      ["f", "g", "h", "i", "zz"] 1 0).2.1 rfl rfl ⟨"zz", by decide, by rfl⟩
    rw [h]
    rfl
  · exact (claim_C3_amended stC3 "gm" ["a", "a", "b", "c", "d"]
      ["e", "f", "g", "h", "i"] 1 0).2.2.2 "a" ["b", "c", "d"] (Player.mk "a" 1500 0 0 0)
      rfl rfl rfl (by decide) rfl (by decide) (by decide)

/-- Full characterization of the registry after a successful finalization:
with duplicate-free rosters, every rostered player is transformed by exactly
one `apply_result` with the team's parameters, every other player is
untouched. -/
theorem lookup_update_ratings (st : State) (gid : String) (s1 s2 : ℤ) (g : PendingGame)
    (t1ps t2ps : List Player)
    (hfind : st.pending_games.find? (fun g => g.game_id == gid) = some g)
    (h1 : resolve_all st.players g.team1 = .ok t1ps)
    (h2 : resolve_all st.players g.team2 = .ok t2ps)
    (hnd : (g.team1 ++ g.team2).Nodup)
    (n : String) :
    lookup (update_ratings st gid s1 s2).1.players n =
      (if n ∈ g.team1 then
        (lookup st.players n).map (apply_result st.base_k_factor (goal_multiplier s1 s2)
          (team_avg_elo t1ps) (expected_score (team_avg_elo t1ps) (team_avg_elo t2ps))
          (if s2 < s1 then 1 else if s1 < s2 then 0 else 1/2))
      else if n ∈ g.team2 then
        (lookup st.players n).map (apply_result st.base_k_factor (goal_multiplier s1 s2)
          (team_avg_elo t2ps) (expected_score (team_avg_elo t2ps) (team_avg_elo t1ps))
          (if s2 < s1 then 0 else if s1 < s2 then 1 else 1/2))
      else lookup st.players n) := by
  unfold update_ratings
  rw [hfind]
  dsimp only
  rw [h1]
  dsimp only
  rw [h2]
  dsimp only
  obtain ⟨hnd1, hnd2, hdisj⟩ := List.nodup_append.mp hnd
  by_cases ht1 : n ∈ g.team1
  · rw [if_pos ht1]
    rw [lookup_apply_team_notMem _ _ _ _ _ (hdisj ht1)]
    rw [lookup_apply_team_mem _ _ _ _ _ hnd1 ht1]
  · rw [if_neg ht1]
    by_cases ht2 : n ∈ g.team2
    · rw [if_pos ht2]
      rw [lookup_apply_team_mem _ _ _ _ _ hnd2 ht2]
      rw [lookup_apply_team_notMem _ _ _ _ _ ht1]
    · rw [if_neg ht2]
      rw [lookup_apply_team_notMem _ _ _ _ _ ht2]
      rw [lookup_apply_team_notMem _ _ _ _ _ ht1]

/-- The rating change under goal multiplier 1 and under goal multiplier
11/10, as a raw real change scaled by 11/10. -/
theorem apply_result_elo_gm (b : ℤ) (avg : ℚ) (e : ℝ) (r : ℚ) (p : Player) :
    (apply_result b 1 avg e r p).elo =
      pytrunc ((p.elo : ℝ) + ((get_player_k_factor b p : ℝ) *
        (get_performance_weight p.elo avg (decide (r = 1)) : ℝ) * ((r : ℝ) - e))) ∧
    (apply_result b (11/10) avg e r p).elo =
      pytrunc ((p.elo : ℝ) + (11/10) * ((get_player_k_factor b p : ℝ) *
        (get_performance_weight p.elo avg (decide (r = 1)) : ℝ) * ((r : ℝ) - e))) := by
  unfold apply_result
  constructor
  · push_cast
    ring_nf
  · push_cast
    ring_nf

theorem expected_score_1000_1800 : expected_score 1000 1800 = 1/101 := by
  unfold expected_score
  have h : (((1800 : ℚ) - 1000 : ℚ) : ℝ) / 400 = ((2 : ℕ) : ℝ) := by norm_num
  rw [h, Real.rpow_natCast]
  norm_num

theorem apply_result_f_run1 :
    apply_result 32 (goal_multiplier 1 0) 1000 (1/101) 0 (Player.mk "f" 1000 0 0 0) =
      Player.mk "f" 999 1 0 1 := by
  unfold apply_result
  have hk : get_player_k_factor 32 (Player.mk "f" 1000 0 0 0) = 46 := by
    norm_num [get_player_k_factor, ratTrunc]
  rw [hk]
  norm_num [get_performance_weight, goal_multiplier, Player.mk.injEq]
  rw [pytrunc_eq_floor (by norm_num), Int.floor_eq_iff]
  constructor <;> norm_num

theorem apply_result_f_run2 :
    apply_result 32 (goal_multiplier 2 0) 1000 (1/101) 0 (Player.mk "f" 1000 0 0 0) =
      Player.mk "f" 999 1 0 1 := by
  unfold apply_result
  have hk : get_player_k_factor 32 (Player.mk "f" 1000 0 0 0) = 46 := by
    norm_num [get_player_k_factor, ratTrunc]
  rw [hk]
  norm_num [get_performance_weight, goal_multiplier, Player.mk.injEq]
  rw [pytrunc_eq_floor (by norm_num), Int.floor_eq_iff]
  constructor <;> norm_num

theorem stC4_lookup_f_run1 :
    lookup (update_ratings stC4 "g1" 1 0).1.players "f" = some (Player.mk "f" 999 1 0 1) := by
  have hc := lookup_update_ratings stC4 "g1" 1 0
    (PendingGame.mk "g1" ["a", "b", "c", "d", "e"] ["f", "g", "h", "i", "j"] 1800 1000 "t")
    t1C4 t2C4 rfl rfl rfl (by decide) "f"
  rw [hc]
  rw [if_neg (by decide), if_pos (by decide)]
  have hl : lookup stC4.players "f" = some (Player.mk "f" 1000 0 0 0) := rfl
  rw [hl, Option.map_some']
  have havg1 : team_avg_elo t1C4 = 1800 := by norm_num [team_avg_elo, t1C4]
  have havg2 : team_avg_elo t2C4 = 1000 := by norm_num [team_avg_elo, t2C4]
  rw [havg1, havg2, expected_score_1000_1800]
  rw [if_pos (by decide)]
  rw [show stC4.base_k_factor = 32 from rfl]
  rw [apply_result_f_run1]

theorem stC4_lookup_f_run2 :
    lookup (update_ratings stC4 "g1" 2 0).1.players "f" = some (Player.mk "f" 999 1 0 1) := by
  have hc := lookup_update_ratings stC4 "g1" 2 0
    (PendingGame.mk "g1" ["a", "b", "c", "d", "e"] ["f", "g", "h", "i", "j"] 1800 1000 "t")
    t1C4 t2C4 rfl rfl rfl (by decide) "f"
  rw [hc]
  rw [if_neg (by decide), if_pos (by decide)]
  have hl : lookup stC4.players "f" = some (Player.mk "f" 1000 0 0 0) := rfl
  rw [hl, Option.map_some']
  have havg1 : team_avg_elo t1C4 = 1800 := by norm_num [team_avg_elo, t1C4]
  have havg2 : team_avg_elo t2C4 = 1000 := by norm_num [team_avg_elo, t2C4]
  rw [havg1, havg2, expected_score_1000_1800]
  rw [if_pos (by decide)]
  rw [show stC4.base_k_factor = 32 from rfl]
  rw [apply_result_f_run2]

/-- C4 (counterexample): in the concrete 1800-vs-1000 game, the weak player
"f" has truncated delta −1 when losing by one goal, and still −1 when losing
by two goals: the magnitude does not strictly increase, refuting the claim
as stated. -/
theorem claim_C4_counterexample :
    ∃ p1 p2 : Player,
      lookup (update_ratings stC4 "g1" 1 0).1.players "f" = some p1 ∧
      lookup (update_ratings stC4 "g1" 2 0).1.players "f" = some p2 ∧
      p1.elo - 1000 ≠ 0 ∧ ¬(|p1.elo - 1000| < |p2.elo - 1000|) :=
  ⟨Player.mk "f" 999 1 0 1, Player.mk "f" 999 1 0 1,
    stC4_lookup_f_run1, stC4_lookup_f_run2, by decide, by decide⟩

/-- C4 (amended): for every fixed pair of duplicate-free rosters, replacing
goal margin 1 by goal margin 2 (same winner) yields a truncated rating delta
of at least as large a magnitude for every player; strictness can fail
because distinct raw changes may truncate to the same integer delta. -/
theorem claim_C4_amended (st : State) (gid : String) (s1 s2 s1' s2' : ℤ) (g : PendingGame)
    (t1ps t2ps : List Player)
    (hfind : st.pending_games.find? (fun g => g.game_id == gid) = some g)
    (h1 : resolve_all st.players g.team1 = .ok t1ps)
    (h2 : resolve_all st.players g.team2 = .ok t2ps)
    (hnd : (g.team1 ++ g.team2).Nodup)
    (hm1 : s1 - s2 = 1) (hm2 : s1' - s2' = 2)
    (n : String) (p p1 p2 : Player)
    (hp : lookup st.players n = some p)
    (hp1 : lookup (update_ratings st gid s1 s2).1.players n = some p1)
    (hp2 : lookup (update_ratings st gid s1' s2').1.players n = some p2) :
    |p1.elo - p.elo| ≤ |p2.elo - p.elo| := by
  have hc1 := lookup_update_ratings st gid s1 s2 g t1ps t2ps hfind h1 h2 hnd n
  have hc2 := lookup_update_ratings st gid s1' s2' g t1ps t2ps hfind h1 h2 hnd n
  rw [hp1] at hc1
  rw [hp2] at hc2
  rw [hp] at hc1 hc2
  have hw1 : s2 < s1 := by omega
  have hw2 : s2' < s1' := by omega
  have hgm1 : goal_multiplier s1 s2 = 1 := by
    unfold goal_multiplier
    rw [hm1]
    norm_num
  have hgm2 : goal_multiplier s1' s2' = 11/10 := by
    unfold goal_multiplier
    rw [hm2]
    norm_num
  rw [hgm1, if_pos hw1, if_pos hw1] at hc1
  rw [hgm2, if_pos hw2, if_pos hw2] at hc2
  by_cases ht1 : n ∈ g.team1
  · rw [if_pos ht1, Option.map_some'] at hc1 hc2
    have e1 := Option.some.inj hc1
    have e2 := Option.some.inj hc2
    rw [e1, e2]
    rw [(apply_result_elo_gm st.base_k_factor (team_avg_elo t1ps)
      (expected_score (team_avg_elo t1ps) (team_avg_elo t2ps)) 1 p).1]
    rw [(apply_result_elo_gm st.base_k_factor (team_avg_elo t1ps)
      (expected_score (team_avg_elo t1ps) (team_avg_elo t2ps)) 1 p).2]
    exact pytrunc_delta_abs_le p.elo _
  · rw [if_neg ht1] at hc1 hc2
    by_cases ht2 : n ∈ g.team2
    · rw [if_pos ht2, Option.map_some'] at hc1 hc2
      have e1 := Option.some.inj hc1
      have e2 := Option.some.inj hc2
      rw [e1, e2]
      rw [(apply_result_elo_gm st.base_k_factor (team_avg_elo t2ps)
        (expected_score (team_avg_elo t2ps) (team_avg_elo t1ps)) 0 p).1]
      rw [(apply_result_elo_gm st.base_k_factor (team_avg_elo t2ps)
        (expected_score (team_avg_elo t2ps) (team_avg_elo t1ps)) 0 p).2]
      exact pytrunc_delta_abs_le p.elo _
    · rw [if_neg ht2] at hc1 hc2
      have e1 := Option.some.inj hc1
      have e2 := Option.some.inj hc2
      rw [e1, e2]

/-- Witness for the amended C4 at the concrete 1800-vs-1000 game. -/
theorem claim_C4_amended_witness :
    ∃ p p1 p2 : Player,
      lookup stC4.players "f" = some p ∧
      lookup (update_ratings stC4 "g1" 1 0).1.players "f" = some p1 ∧
      lookup (update_ratings stC4 "g1" 2 0).1.players "f" = some p2 ∧
      |p1.elo - p.elo| ≤ |p2.elo - p.elo| :=
  ⟨Player.mk "f" 1000 0 0 0, Player.mk "f" 999 1 0 1, Player.mk "f" 999 1 0 1,
    rfl, stC4_lookup_f_run1, stC4_lookup_f_run2,
    claim_C4_amended stC4 "g1" 1 0 2 0
      (PendingGame.mk "g1" ["a", "b", "c", "d", "e"] ["f", "g", "h", "i", "j"] 1800 1000 "t")
      t1C4 t2C4 rfl rfl rfl (by decide) (by decide) (by decide) "f"
      (Player.mk "f" 1000 0 0 0) (Player.mk "f" 999 1 0 1) (Player.mk "f" 999 1 0 1)
      rfl stC4_lookup_f_run1 stC4_lookup_f_run2⟩

/-- Python's round never lands farther than half a unit from its argument. -/
theorem pyRound_dist_le (q : ℚ) : |(pyRound q : ℚ) - q| ≤ 1/2 := by
  unfold pyRound
  have h0 : (0 : ℚ) ≤ q - ⌊q⌋ := by
    have := Int.floor_le q
    linarith
  have h1 : q - ⌊q⌋ < 1 := by
    have := Int.lt_floor_add_one q
    linarith
  dsimp only
  by_cases hlt : q - ⌊q⌋ < 1/2
  · rw [if_pos hlt, abs_sub_comm, abs_of_nonneg h0]
    linarith
  · rw [if_neg hlt]
    by_cases hgt : (1:ℚ)/2 < q - ⌊q⌋
    · rw [if_pos hgt]
      push_cast
      rw [abs_of_nonneg (by linarith)]
      linarith
    · rw [if_neg hgt]
      have heq : q - ⌊q⌋ = 1/2 := by linarith
      by_cases hpar : ⌊q⌋ % 2 = 0
      · rw [if_pos hpar, abs_sub_comm, abs_of_nonneg h0]
        linarith
      · rw [if_neg hpar]
        push_cast
        rw [abs_of_nonneg (by linarith)]
        linarith

theorem length_filterMap_of_isSome {l : List String} {f : String → Option Player}
    (h : ∀ n ∈ l, (f n).isSome) : (l.filterMap f).length = l.length := by
  induction l with
  | nil => rfl
  | cons n ns ih =>
    cases hf : f n with
    | none =>
      exact absurd (h n (List.mem_cons_self n ns)) (by simp [hf])
    | some p =>
      rw [List.filterMap_cons, hf]
      simp only [List.length_cons]
      rw [ih (fun m hm => h m (List.mem_cons_of_mem n hm))]

theorem exists_ten {α : Type*} (l : List α) (h : l.length = 10) :
    ∃ x0 x1 x2 x3 x4 x5 x6 x7 x8 x9 : α,
      l = [x0, x1, x2, x3, x4, x5, x6, x7, x8, x9] := by
  rcases l with _ | ⟨x0, l⟩; · simp at h
  rcases l with _ | ⟨x1, l⟩; · simp at h
  rcases l with _ | ⟨x2, l⟩; · simp at h
  rcases l with _ | ⟨x3, l⟩; · simp at h
  rcases l with _ | ⟨x4, l⟩; · simp at h
  rcases l with _ | ⟨x5, l⟩; · simp at h
  rcases l with _ | ⟨x6, l⟩; · simp at h
  rcases l with _ | ⟨x7, l⟩; · simp at h
  rcases l with _ | ⟨x8, l⟩; · simp at h
  rcases l with _ | ⟨x9, l⟩; · simp at h
  rcases l with _ | ⟨x10, l⟩
  · exact ⟨x0, x1, x2, x3, x4, x5, x6, x7, x8, x9, rfl⟩
  · simp at h

/-- On a ten-element list, the snake-draft index split sends sorted
positions 0, 3, 4, 7, 8 to team 1 and positions 1, 2, 5, 6, 9 to team 2. -/
theorem team_split_ten {α : Type*} (x0 x1 x2 x3 x4 x5 x6 x7 x8 x9 : α) :
    ((([x0, x1, x2, x3, x4, x5, x6, x7, x8, x9] : List α).enum.filter
        (fun x => x.1 % 4 = 0 ∨ x.1 % 4 = 3)).map Prod.snd = [x0, x3, x4, x7, x8]) ∧
    ((([x0, x1, x2, x3, x4, x5, x6, x7, x8, x9] : List α).enum.filter
        (fun x => ¬(x.1 % 4 = 0 ∨ x.1 % 4 = 3))).map Prod.snd = [x1, x2, x5, x6, x9]) := by
  constructor
  · simp [List.enum, List.enumFrom, List.filter]
  · simp [List.enum, List.enumFrom, List.filter]

theorem sortDesc_sorted (l : List Player) : List.Sorted eloGE (sortDesc l) :=
  List.sorted_insertionSort eloGE l

theorem sortDesc_perm (l : List Player) : (sortDesc l).Perm l :=
  List.perm_insertionSort eloGE l

/-- Stability of the descending sort: the players holding any fixed rating
appear in the sorted list in their original relative order. -/
theorem sortDesc_filter_elo (l : List Player) (v : ℤ) :
    (sortDesc l).filter (fun p => p.elo = v) = l.filter (fun p => p.elo = v) := by
  have hpair : (l.filter (fun p => p.elo = v)).Pairwise eloGE := by
    apply List.pairwise_of_forall_mem_list
    intro a ha b hb
    have ha' : a.elo = v := by simpa using (List.mem_filter.mp ha).2
    have hb' : b.elo = v := by simpa using (List.mem_filter.mp hb).2
    unfold eloGE
    omega
  have hsub : List.Sublist (l.filter (fun p => p.elo = v)) (sortDesc l) :=
    List.sublist_insertionSort hpair (List.filter_sublist l)
  have hsub2 : List.Sublist (l.filter (fun p => p.elo = v))
      ((sortDesc l).filter (fun p => p.elo = v)) := by
    have h2 := List.Sublist.filter (fun p => decide (p.elo = v)) hsub
    rwa [List.filter_eq_self.mpr (fun a ha => (List.mem_filter.mp ha).2)] at h2
  have hperm : ((sortDesc l).filter (fun p => p.elo = v)).Perm
      (l.filter (fun p => p.elo = v)) :=
    List.Perm.filter _ (sortDesc_perm l)
  exact ((List.Sublist.length_eq hsub2).mp hperm.length_eq.symm).symm

/-- C5: with exactly ten resolvable names, `create_teams` sorts the resolved
players by rating descending (stably: any fixed rating keeps its input
order), sends sorted indices congruent to 0 or 3 mod 4 to team 1 and 1 or 2
mod 4 to team 2, producing five-name rosters, with each team's average
rating rounded (to within half a unit, i.e. to the nearest integer), and
stores the pending game. -/
theorem claim_C5 (st : State) (gid ts : String) (names : List String)
    (hlen : names.length = 10)
    (hall : ∀ n ∈ names, (find_player st.players n).isSome) :
    ∃ pg : PendingGame,
      create_teams st gid ts names =
        ({ st with pending_games := st.pending_games ++ [pg] }, .created pg) ∧
      List.Sorted eloGE (sortDesc (names.filterMap (find_player st.players))) ∧
      (sortDesc (names.filterMap (find_player st.players))).Perm
        (names.filterMap (find_player st.players)) ∧
      (∀ v : ℤ, (sortDesc (names.filterMap (find_player st.players))).filter
          (fun p => p.elo = v) =
        (names.filterMap (find_player st.players)).filter (fun p => p.elo = v)) ∧
      pg.team1 = (((sortDesc (names.filterMap (find_player st.players))).enum.filter
          (fun x => x.1 % 4 = 0 ∨ x.1 % 4 = 3)).map Prod.snd).map Player.name ∧
      pg.team2 = (((sortDesc (names.filterMap (find_player st.players))).enum.filter
          (fun x => ¬(x.1 % 4 = 0 ∨ x.1 % 4 = 3))).map Prod.snd).map Player.name ∧
      pg.team1.length = 5 ∧ pg.team2.length = 5 ∧
      pg.team1_avg_elo = pyRound (team_avg_elo
        (((sortDesc (names.filterMap (find_player st.players))).enum.filter
          (fun x => x.1 % 4 = 0 ∨ x.1 % 4 = 3)).map Prod.snd)) ∧
      pg.team2_avg_elo = pyRound (team_avg_elo
        (((sortDesc (names.filterMap (find_player st.players))).enum.filter
          (fun x => ¬(x.1 % 4 = 0 ∨ x.1 % 4 = 3))).map Prod.snd)) ∧
      (∀ q : ℚ, |(pyRound q : ℚ) - q| ≤ 1/2) ∧
      pg.game_id = gid ∧ pg.timestamp = ts := by
  have hmiss : names.filter (fun n => (find_player st.players n).isNone) = [] := by
    rw [List.filter_eq_nil_iff]
    intro n hn
    simpa using Option.ne_none_iff_isSome.mpr (hall n hn)
  have hsortlen : (sortDesc (names.filterMap (find_player st.players))).length = 10 := by
    rw [(sortDesc_perm _).length_eq, length_filterMap_of_isSome hall, hlen]
  obtain ⟨x0, x1, x2, x3, x4, x5, x6, x7, x8, x9, hx⟩ := exists_ten _ hsortlen
  refine ⟨{ game_id := gid
            team1 := (((sortDesc (names.filterMap (find_player st.players))).enum.filter
              (fun x => x.1 % 4 = 0 ∨ x.1 % 4 = 3)).map Prod.snd).map Player.name
            team2 := (((sortDesc (names.filterMap (find_player st.players))).enum.filter
              (fun x => ¬(x.1 % 4 = 0 ∨ x.1 % 4 = 3))).map Prod.snd).map Player.name
            team1_avg_elo := pyRound (team_avg_elo
              (((sortDesc (names.filterMap (find_player st.players))).enum.filter
                (fun x => x.1 % 4 = 0 ∨ x.1 % 4 = 3)).map Prod.snd))
            team2_avg_elo := pyRound (team_avg_elo
              (((sortDesc (names.filterMap (find_player st.players))).enum.filter
                (fun x => ¬(x.1 % 4 = 0 ∨ x.1 % 4 = 3))).map Prod.snd))
            timestamp := ts },
    ?_, sortDesc_sorted _, sortDesc_perm _, sortDesc_filter_elo _, rfl, rfl,
    ?_, ?_, rfl, rfl, pyRound_dist_le, rfl, rfl⟩
  · unfold create_teams
    rw [if_neg (by omega), if_neg (by simp [hmiss])]
    rfl
  · dsimp only
    rw [hx, (team_split_ten x0 x1 x2 x3 x4 x5 x6 x7 x8 x9).1]
    rfl
  · dsimp only
    rw [hx, (team_split_ten x0 x1 x2 x3 x4 x5 x6 x7 x8 x9).2]
    rfl

/-- Witness for C5: ten concrete players with the spec's example votes. -/
theorem claim_C5_witness :
    ∃ pg : PendingGame,
      create_teams stC2 "g2" "t2" ["a", "b", "c", "d", "e", "f", "g", "h", "i", "j"] =
        ({ stC2 with pending_games := stC2.pending_games ++ [pg] }, .created pg) ∧
      List.Sorted eloGE (sortDesc (["a", "b", "c", "d", "e", "f", "g", "h", "i", "j"].filterMap
        (find_player stC2.players))) ∧
      (sortDesc (["a", "b", "c", "d", "e", "f", "g", "h", "i", "j"].filterMap
        (find_player stC2.players))).Perm
        (["a", "b", "c", "d", "e", "f", "g", "h", "i", "j"].filterMap
        (find_player stC2.players)) ∧
      (∀ v : ℤ, (sortDesc (["a", "b", "c", "d", "e", "f", "g", "h", "i", "j"].filterMap
          (find_player stC2.players))).filter (fun p => p.elo = v) =
        (["a", "b", "c", "d", "e", "f", "g", "h", "i", "j"].filterMap
          (find_player stC2.players)).filter (fun p => p.elo = v)) ∧
      pg.team1 = (((sortDesc (["a", "b", "c", "d", "e", "f", "g", "h", "i", "j"].filterMap
          (find_player stC2.players))).enum.filter
          (fun x => x.1 % 4 = 0 ∨ x.1 % 4 = 3)).map Prod.snd).map Player.name ∧
      pg.team2 = (((sortDesc (["a", "b", "c", "d", "e", "f", "g", "h", "i", "j"].filterMap
          (find_player stC2.players))).enum.filter
          (fun x => ¬(x.1 % 4 = 0 ∨ x.1 % 4 = 3))).map Prod.snd).map Player.name ∧
      pg.team1.length = 5 ∧ pg.team2.length = 5 ∧
      pg.team1_avg_elo = pyRound (team_avg_elo
        (((sortDesc (["a", "b", "c", "d", "e", "f", "g", "h", "i", "j"].filterMap
          (find_player stC2.players))).enum.filter
          (fun x => x.1 % 4 = 0 ∨ x.1 % 4 = 3)).map Prod.snd)) ∧
      pg.team2_avg_elo = pyRound (team_avg_elo
        (((sortDesc (["a", "b", "c", "d", "e", "f", "g", "h", "i", "j"].filterMap
          (find_player stC2.players))).enum.filter
          (fun x => ¬(x.1 % 4 = 0 ∨ x.1 % 4 = 3))).map Prod.snd)) ∧
      (∀ q : ℚ, |(pyRound q : ℚ) - q| ≤ 1/2) ∧
      pg.game_id = "g2" ∧ pg.timestamp = "t2" :=
  claim_C5 stC2 "g2" "t2" ["a", "b", "c", "d", "e", "f", "g", "h", "i", "j"]
    (by decide) (by decide)

theorem apply_result_wins (b : ℤ) (gm avg : ℚ) (e : ℝ) (r : ℚ) (p : Player) :
    (apply_result b gm avg e r p).wins = if r = 1 then p.wins + 1 else p.wins := rfl

theorem apply_result_losses (b : ℤ) (gm avg : ℚ) (e : ℝ) (r : ℚ) (p : Player) :
    (apply_result b gm avg e r p).losses = if r = 0 then p.losses + 1 else p.losses := rfl

/-- A single rating update preserves `wins + losses ≤ games_played`. -/
theorem inv_apply_result (b : ℤ) (gm avg : ℚ) (e : ℝ) (r : ℚ) (p : Player)
    (h : p.wins + p.losses ≤ p.games_played) :
    (apply_result b gm avg e r p).wins + (apply_result b gm avg e r p).losses ≤
      (apply_result b gm avg e r p).games_played := by
  rw [apply_result_wins, apply_result_losses, apply_result_games]
  by_cases h1 : r = 1
  · rw [if_pos h1]
    have h0 : ¬(r = 0) := by
      rw [h1]
      norm_num
    rw [if_neg h0]
    omega
  · rw [if_neg h1]
    by_cases h0 : r = 0
    · rw [if_pos h0]
      omega
    · rw [if_neg h0]
      omega

/-- Automatic finalization preserves the counter invariant for every stored
player. -/
theorem wl_update_ratings (st : State) (gid : String) (s1 s2 : ℤ)
    (hinv : ∀ p ∈ st.players, p.wins + p.losses ≤ p.games_played) :
    ∀ q ∈ (update_ratings st gid s1 s2).1.players,
      q.wins + q.losses ≤ q.games_played := by
  unfold update_ratings
  cases hfind : st.pending_games.find? (fun g => g.game_id == gid) with
  | none => exact hinv
  | some g =>
    dsimp only
    cases hr1 : resolve_all st.players g.team1 with
    | error m => exact hinv
    | ok t1ps =>
      dsimp only
      cases hr2 : resolve_all st.players g.team2 with
      | error m => exact hinv
      | ok t2ps =>
        dsimp only
        exact forall_mem_apply_team _ _ _ _ _
          (forall_mem_apply_team _ _ _ _ _ hinv
            (fun p hp => inv_apply_result _ _ _ _ _ p hp))
          (fun p hp => inv_apply_result _ _ _ _ _ p hp)

/-- Manual recording preserves the counter invariant for every stored
player. -/
theorem wl_record_manual (st : State) (gid : String) (t1 t2 : List String) (s1 s2 : ℤ)
    (hinv : ∀ p ∈ st.players, p.wins + p.losses ≤ p.games_played) :
    ∀ q ∈ (record_manual_game st gid t1 t2 s1 s2).1.players,
      q.wins + q.losses ≤ q.games_played := by
  unfold record_manual_game
  by_cases hc : t1.length ≠ 5 ∨ t2.length ≠ 5
  · rw [if_pos hc]
    exact hinv
  · rw [if_neg hc]
    dsimp only
    by_cases hm : (t1 ++ t2).filter (fun n => (find_player st.players n).isNone) ≠ []
    · rw [if_pos hm]
      exact hinv
    · rw [if_neg hm]
      exact forall_mem_apply_team _ _ _ _ _
        (forall_mem_apply_team _ _ _ _ _ hinv
          (fun p hp => inv_apply_result _ _ _ _ _ p hp))
        (fun p hp => inv_apply_result _ _ _ _ _ p hp)

/-- Full characterization of the registry after a manual recording, mirror
of `lookup_update_ratings` over the case-insensitively resolved rosters. -/
theorem lookup_record_manual (st : State) (gid : String) (t1 t2 : List String) (s1 s2 : ℤ)
    (h1 : t1.length = 5) (h2 : t2.length = 5)
    (hall : ∀ n ∈ t1 ++ t2, (find_player st.players n).isSome)
    (hnd : (((t1 ++ t2).filterMap (find_player st.players)).map Player.name).Nodup)
    (n : String) :
    lookup (record_manual_game st gid t1 t2 s1 s2).1.players n =
      (if n ∈ (t1.filterMap (find_player st.players)).map Player.name then
        (lookup st.players n).map (apply_result st.base_k_factor (goal_multiplier s1 s2)
          (team_avg_elo (t1.filterMap (find_player st.players)))
          (expected_score (team_avg_elo (t1.filterMap (find_player st.players)))
            (team_avg_elo (t2.filterMap (find_player st.players))))
          (if s2 < s1 then 1 else if s1 < s2 then 0 else 1/2))
      else if n ∈ (t2.filterMap (find_player st.players)).map Player.name then
        (lookup st.players n).map (apply_result st.base_k_factor (goal_multiplier s1 s2)
          (team_avg_elo (t2.filterMap (find_player st.players)))
          (expected_score (team_avg_elo (t2.filterMap (find_player st.players)))
            (team_avg_elo (t1.filterMap (find_player st.players))))
          (if s2 < s1 then 0 else if s1 < s2 then 1 else 1/2))
      else lookup st.players n) := by
  have hmiss : (t1 ++ t2).filter (fun n => (find_player st.players n).isNone) = [] := by
    rw [List.filter_eq_nil_iff]
    intro m hm
    simpa using Option.ne_none_iff_isSome.mpr (hall m hm)
  rw [List.filterMap_append, List.map_append] at hnd
  obtain ⟨hnd1, hnd2, hdisj⟩ := List.nodup_append.mp hnd
  unfold record_manual_game
  rw [if_neg (by push_neg; exact ⟨h1, h2⟩), if_neg (by simp [hmiss])]
  dsimp only
  by_cases ht1 : n ∈ (t1.filterMap (find_player st.players)).map Player.name
  · rw [if_pos ht1]
    rw [lookup_apply_team_notMem _ _ _ _ _ (hdisj ht1)]
    rw [lookup_apply_team_mem _ _ _ _ _ hnd1 ht1]
  · rw [if_neg ht1]
    by_cases ht2 : n ∈ (t2.filterMap (find_player st.players)).map Player.name
    · rw [if_pos ht2]
      rw [lookup_apply_team_mem _ _ _ _ _ hnd2 ht2]
      rw [lookup_apply_team_notMem _ _ _ _ _ ht1]
    · rw [if_neg ht2]
      rw [lookup_apply_team_notMem _ _ _ _ _ ht2]
      rw [lookup_apply_team_notMem _ _ _ _ _ ht1]

/-- Per-player counter updates of automatic finalization, under
duplicate-free rosters. -/
theorem counters_update_ratings (st : State) (gid : String) (s1 s2 : ℤ) (g : PendingGame)
    (t1ps t2ps : List Player)
    (hfind : st.pending_games.find? (fun g => g.game_id == gid) = some g)
    (h1 : resolve_all st.players g.team1 = .ok t1ps)
    (h2 : resolve_all st.players g.team2 = .ok t2ps)
    (hnd : (g.team1 ++ g.team2).Nodup)
    (n : String) (p p' : Player)
    (hp : lookup st.players n = some p)
    (hp' : lookup (update_ratings st gid s1 s2).1.players n = some p') :
    (n ∈ g.team1 →
      p'.games_played = p.games_played + 1 ∧
      p'.wins = (if (if s2 < s1 then (1:ℚ) else if s1 < s2 then 0 else 1/2) = 1
        then p.wins + 1 else p.wins) ∧
      p'.losses = (if (if s2 < s1 then (1:ℚ) else if s1 < s2 then 0 else 1/2) = 0
        then p.losses + 1 else p.losses)) ∧
    (n ∈ g.team2 →
      p'.games_played = p.games_played + 1 ∧
      p'.wins = (if (if s2 < s1 then (0:ℚ) else if s1 < s2 then 1 else 1/2) = 1
        then p.wins + 1 else p.wins) ∧
      p'.losses = (if (if s2 < s1 then (0:ℚ) else if s1 < s2 then 1 else 1/2) = 0
        then p.losses + 1 else p.losses)) ∧
    (n ∉ g.team1 → n ∉ g.team2 → p' = p) := by
  obtain ⟨hnd1, hnd2, hdisj⟩ := List.nodup_append.mp hnd
  have hc := lookup_update_ratings st gid s1 s2 g t1ps t2ps hfind h1 h2 hnd n
  rw [hp', hp] at hc
  refine ⟨?_, ?_, ?_⟩
  · intro ht1
    rw [if_pos ht1, Option.map_some'] at hc
    rw [Option.some.inj hc]
    exact ⟨rfl, rfl, rfl⟩
  · intro ht2
    have ht1 : n ∉ g.team1 := fun h => hdisj h ht2
    rw [if_neg ht1, if_pos ht2, Option.map_some'] at hc
    rw [Option.some.inj hc]
    exact ⟨rfl, rfl, rfl⟩
  · intro ht1 ht2
    rw [if_neg ht1, if_neg ht2] at hc
    exact Option.some.inj hc

/-- Per-player counter updates of manual recording, under duplicate-free
resolved rosters. -/
theorem counters_record_manual (st : State) (gid : String) (t1 t2 : List String) (s1 s2 : ℤ)
    (h1 : t1.length = 5) (h2 : t2.length = 5)
    (hall : ∀ n ∈ t1 ++ t2, (find_player st.players n).isSome)
    (hnd : (((t1 ++ t2).filterMap (find_player st.players)).map Player.name).Nodup)
    (n : String) (p p' : Player)
    (hp : lookup st.players n = some p)
    (hp' : lookup (record_manual_game st gid t1 t2 s1 s2).1.players n = some p') :
    (n ∈ (t1.filterMap (find_player st.players)).map Player.name →
      p'.games_played = p.games_played + 1 ∧
      p'.wins = (if (if s2 < s1 then (1:ℚ) else if s1 < s2 then 0 else 1/2) = 1
        then p.wins + 1 else p.wins) ∧
      p'.losses = (if (if s2 < s1 then (1:ℚ) else if s1 < s2 then 0 else 1/2) = 0
        then p.losses + 1 else p.losses)) ∧
    (n ∈ (t2.filterMap (find_player st.players)).map Player.name →
      p'.games_played = p.games_played + 1 ∧
      p'.wins = (if (if s2 < s1 then (0:ℚ) else if s1 < s2 then 1 else 1/2) = 1
        then p.wins + 1 else p.wins) ∧
      p'.losses = (if (if s2 < s1 then (0:ℚ) else if s1 < s2 then 1 else 1/2) = 0
        then p.losses + 1 else p.losses)) ∧
    (n ∉ (t1.filterMap (find_player st.players)).map Player.name →
      n ∉ (t2.filterMap (find_player st.players)).map Player.name → p' = p) := by
  have hnd' := hnd
  rw [List.filterMap_append, List.map_append] at hnd'
  obtain ⟨hnd1, hnd2, hdisj⟩ := List.nodup_append.mp hnd'
  have hc := lookup_record_manual st gid t1 t2 s1 s2 h1 h2 hall hnd n
  rw [hp', hp] at hc
  refine ⟨?_, ?_, ?_⟩
  · intro ht1
    rw [if_pos ht1, Option.map_some'] at hc
    rw [Option.some.inj hc]
    exact ⟨rfl, rfl, rfl⟩
  · intro ht2
    have ht1 : n ∉ (t1.filterMap (find_player st.players)).map Player.name :=
      fun h => hdisj h ht2
    rw [if_neg ht1, if_pos ht2, Option.map_some'] at hc
    rw [Option.some.inj hc]
    exact ⟨rfl, rfl, rfl⟩
  · intro ht1 ht2
    rw [if_neg ht1, if_neg ht2] at hc
    exact Option.some.inj hc

/-- C9: every finalization (automatic and manual) preserves the invariant
`wins + losses ≤ games_played` for every stored player, and, for
duplicate-free rosters, increments each rostered player's `games_played` by
exactly one, `wins` by one iff that team's result is 1.0, `losses` by one
iff it is 0.0 (so a draw, result 0.5, increments neither), and leaves
non-rostered players untouched. -/
theorem claim_C9 :
    (∀ (st : State) (gid : String) (s1 s2 : ℤ),
      (∀ p ∈ st.players, p.wins + p.losses ≤ p.games_played) →
      ∀ q ∈ (update_ratings st gid s1 s2).1.players,
        q.wins + q.losses ≤ q.games_played) ∧
    (∀ (st : State) (gid : String) (t1 t2 : List String) (s1 s2 : ℤ),
      (∀ p ∈ st.players, p.wins + p.losses ≤ p.games_played) →
      ∀ q ∈ (record_manual_game st gid t1 t2 s1 s2).1.players,
        q.wins + q.losses ≤ q.games_played) ∧
    (∀ (st : State) (gid : String) (s1 s2 : ℤ) (g : PendingGame) (t1ps t2ps : List Player),
      st.pending_games.find? (fun g => g.game_id == gid) = some g →
      resolve_all st.players g.team1 = .ok t1ps →
      resolve_all st.players g.team2 = .ok t2ps →
      (g.team1 ++ g.team2).Nodup →
      ∀ (n : String) (p p' : Player),
        lookup st.players n = some p →
        lookup (update_ratings st gid s1 s2).1.players n = some p' →
        (n ∈ g.team1 →
          p'.games_played = p.games_played + 1 ∧
          p'.wins = (if (if s2 < s1 then (1:ℚ) else if s1 < s2 then 0 else 1/2) = 1
            then p.wins + 1 else p.wins) ∧
          p'.losses = (if (if s2 < s1 then (1:ℚ) else if s1 < s2 then 0 else 1/2) = 0
            then p.losses + 1 else p.losses)) ∧
        (n ∈ g.team2 →
          p'.games_played = p.games_played + 1 ∧
          p'.wins = (if (if s2 < s1 then (0:ℚ) else if s1 < s2 then 1 else 1/2) = 1
            then p.wins + 1 else p.wins) ∧
          p'.losses = (if (if s2 < s1 then (0:ℚ) else if s1 < s2 then 1 else 1/2) = 0
            then p.losses + 1 else p.losses)) ∧
        (n ∉ g.team1 → n ∉ g.team2 → p' = p)) ∧
    (∀ (st : State) (gid : String) (t1 t2 : List String) (s1 s2 : ℤ),
      t1.length = 5 → t2.length = 5 →
      (∀ n ∈ t1 ++ t2, (find_player st.players n).isSome) →
      ((((t1 ++ t2).filterMap (find_player st.players)).map Player.name).Nodup) →
      ∀ (n : String) (p p' : Player),
        lookup st.players n = some p →
        lookup (record_manual_game st gid t1 t2 s1 s2).1.players n = some p' →
        (n ∈ (t1.filterMap (find_player st.players)).map Player.name →
          p'.games_played = p.games_played + 1 ∧
          p'.wins = (if (if s2 < s1 then (1:ℚ) else if s1 < s2 then 0 else 1/2) = 1
            then p.wins + 1 else p.wins) ∧
          p'.losses = (if (if s2 < s1 then (1:ℚ) else if s1 < s2 then 0 else 1/2) = 0
            then p.losses + 1 else p.losses)) ∧
        (n ∈ (t2.filterMap (find_player st.players)).map Player.name →
          p'.games_played = p.games_played + 1 ∧
          p'.wins = (if (if s2 < s1 then (0:ℚ) else if s1 < s2 then 1 else 1/2) = 1
            then p.wins + 1 else p.wins) ∧
          p'.losses = (if (if s2 < s1 then (0:ℚ) else if s1 < s2 then 1 else 1/2) = 0
            then p.losses + 1 else p.losses)) ∧
        (n ∉ (t1.filterMap (find_player st.players)).map Player.name →
          n ∉ (t2.filterMap (find_player st.players)).map Player.name → p' = p)) :=
  ⟨wl_update_ratings, wl_record_manual,
    fun st gid s1 s2 g t1ps t2ps hfind h1 h2 hnd n p p' hp hp' =>
      counters_update_ratings st gid s1 s2 g t1ps t2ps hfind h1 h2 hnd n p p' hp hp',
    fun st gid t1 t2 s1 s2 h1 h2 hall hnd n p p' hp hp' =>
      counters_record_manual st gid t1 t2 s1 s2 h1 h2 hall hnd n p p' hp hp'⟩

theorem stC9_lookup_a :
    lookup (update_ratings stC9 "g1" 3 3).1.players "a" = some (Player.mk "a" 1500 1 0 0) := by
  have hc := lookup_update_ratings stC9 "g1" 3 3
    (PendingGame.mk "g1" ["a", "b", "c", "d", "e"] ["f", "g", "h", "i", "j"] 1500 1500 "t")
    t1C9 t2C9 rfl rfl rfl (by decide) "a"
  rw [hc]
  rw [if_pos (by decide)]
  rw [show lookup stC9.players "a" = some (Player.mk "a" 1500 0 0 0) from rfl, Option.map_some']
  have havg1 : team_avg_elo t1C9 = 1500 := by norm_num [team_avg_elo, t1C9]
  have havg2 : team_avg_elo t2C9 = 1500 := by norm_num [team_avg_elo, t2C9]
  rw [havg1, havg2, expected_score_self]
  rw [if_neg (by omega), if_neg (by omega)]
  rw [show stC9.base_k_factor = 32 from rfl]
  unfold apply_result
  simp only [Player.mk.injEq, Option.some.injEq]
  norm_num
  rw [pytrunc_eq_floor (by norm_num)]
  rw [show (1500:ℝ) = ((1500:ℤ):ℝ) by norm_num]
  rw [Int.floor_intCast]

/-- Witness for C9: the invariant is preserved by a concrete automatic
finalization and a concrete manual recording, and the per-player counter
update holds for the rostered player "a" in a concrete drawn game. -/
theorem claim_C9_witness :
    (∀ q ∈ (update_ratings stC9 "g1" 3 3).1.players,
      q.wins + q.losses ≤ q.games_played) ∧
    (∀ q ∈ (record_manual_game stC3 "gm" ["a", "b", "c", "d", "e"]
        ["f", "g", "h", "i", "j"] 2 1).1.players,
      q.wins + q.losses ≤ q.games_played) ∧
    ((Player.mk "a" 1500 1 0 0).games_played = (Player.mk "a" 1500 0 0 0).games_played + 1 ∧
     (Player.mk "a" 1500 1 0 0).wins =
       (if (if (3:ℤ) < 3 then (1:ℚ) else if (3:ℤ) < 3 then 0 else 1/2) = 1
         then (Player.mk "a" 1500 0 0 0).wins + 1 else (Player.mk "a" 1500 0 0 0).wins) ∧
     (Player.mk "a" 1500 1 0 0).losses =
       (if (if (3:ℤ) < 3 then (1:ℚ) else if (3:ℤ) < 3 then 0 else 1/2) = 0
         then (Player.mk "a" 1500 0 0 0).losses + 1 else (Player.mk "a" 1500 0 0 0).losses)) := by
  refine ⟨claim_C9.1 stC9 "g1" 3 3 (by decide),
    claim_C9.2.1 stC3 "gm" ["a", "b", "c", "d", "e"] ["f", "g", "h", "i", "j"] 2 1 (by decide),
    ?_⟩
  exact (claim_C9.2.2.1 stC9 "g1" 3 3
    (PendingGame.mk "g1" ["a", "b", "c", "d", "e"] ["f", "g", "h", "i", "j"] 1500 1500 "t")
    t1C9 t2C9 rfl rfl rfl (by decide) "a" (Player.mk "a" 1500 0 0 0) (Player.mk "a" 1500 1 0 0)
    rfl stC9_lookup_a).1 (by decide)

end FootballBalancer
